import Mathlib

/-!
A shallow embedding of the DNS server's wire codec and request handling
(`src/buffer/buffer.rs`, `src/main.rs`, `src/lib/dns_lookup.rs`) together
with proofs about it.

Conventions of the embedding:
* Rust `u8`/`u16`/`u32`/`usize` values are `Nat`; every `as u8` cast in the
  source appears as an explicit `% 256` (and similarly for wider casts).
* Rust `Result<T>` (whose errors are boxed strings) becomes `Res T` with
  `Res.err msg`; a Rust panic (out-of-bounds array indexing) becomes
  `Res.panic`, which no `match` of the program can intercept.
* Rust `String`/`&str` values that hold DNS names are byte lists
  (`List Nat`); the programs only ever produce ASCII content for them.
* The fixed `[u8; 512]` array is a `List Nat` of length 512; the
  construction functions below only ever build length-512 buffers.
* Loops of the source that are not structurally recursive are given a
  fuel argument; the fuel chosen for the top-level wrappers is far larger
  than any bound the 512-byte buffer allows, so fuel exhaustion
  (`Res.err "out of fuel"`) is unreachable in every fact proved below.
-/

/-- Outcome of running a piece of the Rust program: normal value, a
`Result::Err` carrying the error message, or a panic (used for
out-of-bounds array indexing, which no caller can catch). -/
inductive Res (α : Type) where
  | ok : α → Res α
  | err : String → Res α
  | panic : Res α
deriving Repr, DecidableEq

def Res.bind {α β : Type} : Res α → (α → Res β) → Res β
  | .ok a, f => f a
  | .err e, _ => .err e
  | .panic, _ => .panic

instance : Monad Res where
  pure := Res.ok
  bind := Res.bind

/-- The error message of every bounds failure in `buffer.rs`. -/
def endOfBufferMsg : String := "End of buffer"

/-- `format!("Limit of {} jumps exceeded", max_jumps)` with `max_jumps = 5`. -/
def jumpLimitMsg : String := "Limit of 5 jumps exceeded"

/-- The error message of `write_qname` for an over-long label. -/
def labelTooLongMsg : String := "Label is too long and exceeds 63 characters"

/-- `struct BytePacketBuffer { buf: [u8; 512], pos: usize }`. -/
structure BytePacketBuffer where
  buf : List Nat
  pos : Nat
deriving Repr, DecidableEq

/-- `BytePacketBuffer::new()`: 512 zero bytes, cursor at 0. -/
def BytePacketBuffer.new : BytePacketBuffer :=
  { buf := List.replicate 512 0, pos := 0 }

/-- `step`: advance `pos` unconditionally (the source performs no bounds
check here). -/
def BytePacketBuffer.step (b : BytePacketBuffer) (steps : Nat) :
    Res BytePacketBuffer :=
  .ok { b with pos := b.pos + steps }

/-- `seek`: set `pos` unconditionally. -/
def BytePacketBuffer.seek (b : BytePacketBuffer) (pos : Nat) :
    Res BytePacketBuffer :=
  .ok { b with pos := pos }

/-- `read`: one byte at the cursor, cursor advances. -/
def BytePacketBuffer.read (b : BytePacketBuffer) :
    Res (Nat × BytePacketBuffer) :=
  if b.pos ≥ 512 then .err endOfBufferMsg
  else .ok (b.buf.getD b.pos 0, { b with pos := b.pos + 1 })

/-- `get`: one byte at an absolute position, cursor unchanged. -/
def BytePacketBuffer.get (b : BytePacketBuffer) (pos : Nat) : Res Nat :=
  if pos ≥ 512 then .err endOfBufferMsg
  else .ok (b.buf.getD pos 0)

/-- `get_range`: `len` bytes starting at `start`, cursor unchanged. -/
def BytePacketBuffer.get_range (b : BytePacketBuffer) (start len : Nat) :
    Res (List Nat) :=
  if start + len > 512 then .err endOfBufferMsg
  else .ok ((b.buf.drop start).take len)

/-- `read_u16`: big-endian composition of two `read`s. -/
def BytePacketBuffer.read_u16 (b : BytePacketBuffer) :
    Res (Nat × BytePacketBuffer) := do
  let (hi, b) ← b.read
  let (lo, b) ← b.read
  pure ((hi <<< 8) ||| lo, b)

/-- `read_u32`: big-endian composition of four `read`s. -/
def BytePacketBuffer.read_u32 (b : BytePacketBuffer) :
    Res (Nat × BytePacketBuffer) := do
  let (b3, b) ← b.read
  let (b2, b) ← b.read
  let (b1, b) ← b.read
  let (b0, b) ← b.read
  pure ((b3 <<< 24) ||| (b2 <<< 16) ||| (b1 <<< 8) ||| (b0 <<< 0), b)

/-- `write`: store a byte at the cursor (requires `pos < 512`), advance. -/
def BytePacketBuffer.write (b : BytePacketBuffer) (byte : Nat) :
    Res BytePacketBuffer :=
  if b.pos ≥ 512 then .err endOfBufferMsg
  else .ok { buf := b.buf.set b.pos byte, pos := b.pos + 1 }

/-- `write_u8`. -/
def BytePacketBuffer.write_u8 (b : BytePacketBuffer) (byte : Nat) :
    Res BytePacketBuffer :=
  b.write byte

/-- `write_u16`: two big-endian bytes; the `as u8` casts are the `% 256`. -/
def BytePacketBuffer.write_u16 (b : BytePacketBuffer) (v : Nat) :
    Res BytePacketBuffer := do
  let b ← b.write ((v >>> 8) % 256)
  b.write ((v &&& 0xff) % 256)

/-- `write_u32`: four big-endian bytes; the `as u8` casts are the `% 256`. -/
def BytePacketBuffer.write_u32 (b : BytePacketBuffer) (v : Nat) :
    Res BytePacketBuffer := do
  let b ← b.write ((v >>> 24) % 256)
  let b ← b.write ((v >>> 16) % 256)
  let b ← b.write ((v >>> 8) % 256)
  b.write ((v >>> 0) % 256)

/-- `set`: absolute-position store, cursor unchanged.  The source performs
no bounds check; a position at or past 512 makes the Rust array indexing
`self.buf[pos] = val` panic, which the embedding renders as `Res.panic`. -/
def BytePacketBuffer.set (b : BytePacketBuffer) (pos val : Nat) :
    Res BytePacketBuffer :=
  if pos < 512 then .ok { b with buf := b.buf.set pos val }
  else .panic

/-- `set_u16`: two absolute-position stores, big-endian. -/
def BytePacketBuffer.set_u16 (b : BytePacketBuffer) (pos val : Nat) :
    Res BytePacketBuffer := do
  let b ← b.set pos ((val >>> 8) % 256)
  b.set (pos + 1) ((val &&& 0xFF) % 256)

/-- Models `String::from_utf8_lossy(bytes).to_lowercase()` byte by byte on
the ASCII fragment: an ASCII upper-case letter gains 32, everything else
is kept.  All names the program manipulates in the facts below are ASCII,
where this is exact. -/
def toLowerByte (b : Nat) : Nat :=
  if 65 ≤ b ∧ b ≤ 90 then b + 32 else b

/-- `max_jumps` of `read_qname`. -/
def maxJumps : Nat := 5

/-- The `loop` of `read_qname`, one constructor of `fuel` per iteration.
State: the buffer (whose cursor the first jump moves), the local cursor
`qname_pos`, the `jumped` flag, the `jumps_performed` counter, the current
`delimiter` (`[]` before the first label, `[46]` = "." afterwards) and the
accumulated output `outstr`.  Returns the output, the final local cursor,
the final `jumped` flag and the buffer. -/
def readQnameLoop (fuel : Nat) (b : BytePacketBuffer) (qname_pos : Nat)
    (jumped : Bool) (jumps_performed : Nat) (delimiter outstr : List Nat) :
    Res (List Nat × Nat × Bool × BytePacketBuffer) :=
  match fuel with
  | 0 => .err "out of fuel"
  | fuel + 1 =>
    if jumps_performed > maxJumps then .err jumpLimitMsg
    else
      match b.get qname_pos with
      | .err e => .err e
      | .panic => .panic
      | .ok len =>
        if len &&& 0xC0 = 0xC0 then
          let b := if ¬jumped then { b with pos := qname_pos + 2 } else b
          match b.get (qname_pos + 1) with
          | .err e => .err e
          | .panic => .panic
          | .ok b2 =>
            let offset := ((len ^^^ 0xC0) <<< 8) ||| b2
            readQnameLoop fuel b offset true (jumps_performed + 1)
              delimiter outstr
        else
          let qname_pos := qname_pos + 1
          if len = 0 then .ok (outstr, qname_pos, jumped, b)
          else
            match b.get_range qname_pos len with
            | .err e => .err e
            | .panic => .panic
            | .ok str_buffer =>
              readQnameLoop fuel b (qname_pos + len) jumped jumps_performed
                [46] (outstr ++ delimiter ++ str_buffer.map toLowerByte)

/-- Fuel for `read_qname`: far more than the loop can ever iterate on a
512-byte buffer (each label consumes at least two local-cursor positions
and at most six jumps are ever performed). -/
def qnameFuel : Nat := 4096

/-- `read_qname`: run the loop from the buffer cursor, then `seek` to the
local cursor if no jump was performed.  `outstr` is the string the caller
passes in; labels are appended to it. -/
def BytePacketBuffer.read_qname (b : BytePacketBuffer) (outstr : List Nat) :
    Res (List Nat × BytePacketBuffer) :=
  match readQnameLoop qnameFuel b b.pos false 0 [] outstr with
  | .err e => .err e
  | .panic => .panic
  | .ok (out, qname_pos, jumped, b) =>
    if ¬jumped then .ok (out, { b with pos := qname_pos })
    else .ok (out, b)

/-- Rust's `str::split('.')` on a byte string: splitting the empty string
yields one empty piece, `"a..b"` yields `["a", "", "b"]`, and so on.  The
result is never the empty list of pieces. -/
def splitOnDot : List Nat → List (List Nat)
  | [] => [[]]
  | byte :: rest =>
    if byte = 46 then [] :: splitOnDot rest
    else
      match splitOnDot rest with
      | piece :: pieces => (byte :: piece) :: pieces
      | [] => [[byte]]

/-- Write the bytes of one label with consecutive `write` calls. -/
def writeLabelBytes (b : BytePacketBuffer) : List Nat → Res BytePacketBuffer
  | [] => .ok b
  | byte :: rest => do
    let b ← b.write byte
    writeLabelBytes b rest

/-- The `for label in q_name.split('.')` loop of `write_qname`: length
check, length byte (its `as u8` cast is the `% 256`), label bytes. -/
def writeQnameLabels (b : BytePacketBuffer) :
    List (List Nat) → Res BytePacketBuffer
  | [] => .ok b
  | label :: rest =>
    if label.length > 0x3f then .err labelTooLongMsg
    else do
      let b ← b.write_u8 (label.length % 256)
      let b ← writeLabelBytes b label
      writeQnameLabels b rest

/-- `write_qname`: all labels, then the terminating zero byte. -/
def BytePacketBuffer.write_qname (b : BytePacketBuffer) (q_name : List Nat) :
    Res BytePacketBuffer := do
  let b ← writeQnameLabels b (splitOnDot q_name)
  b.write_u8 0

/-- `enum ResultCode` of `main.rs`. -/
inductive ResultCode where
  | NOERROR
  | FORMERR
  | SERVFAIL
  | NXDOMAIN
  | NOTIMP
  | REFUSED
deriving Repr, DecidableEq

/-- The discriminant of `ResultCode` (`NOERROR=0` … `REFUSED=5`); models
the Rust `self.rescode as u8` cast of the fieldless enum. -/
def ResultCode.toNum : ResultCode → Nat
  | .NOERROR => 0
  | .FORMERR => 1
  | .SERVFAIL => 2
  | .NXDOMAIN => 3
  | .NOTIMP => 4
  | .REFUSED => 5

/-- `ResultCode::from_num`: 1–5 map to their variant, everything else to
`NOERROR`. -/
def ResultCode.from_num (num : Nat) : ResultCode :=
  match num with
  | 1 => .FORMERR
  | 2 => .SERVFAIL
  | 3 => .NXDOMAIN
  | 4 => .NOTIMP
  | 5 => .REFUSED
  | _ => .NOERROR

/-- `enum QueryType` of `main.rs`. -/
inductive QueryType where
  | UNKNOWN : Nat → QueryType
  | A
  | NS
  | CNAME
  | MX
  | AAAA
deriving Repr, DecidableEq

/-- `QueryType::to_num`. -/
def QueryType.to_num : QueryType → Nat
  | .UNKNOWN x => x
  | .A => 1
  | .NS => 2
  | .CNAME => 5
  | .MX => 15
  | .AAAA => 28

/-- `QueryType::from_num`. -/
def QueryType.from_num (num : Nat) : QueryType :=
  match num with
  | 1 => .A
  | 2 => .NS
  | 5 => .CNAME
  | 15 => .MX
  | 28 => .AAAA
  | _ => .UNKNOWN num

/-- `struct DnsHeader` of `main.rs`; integer fields are `Nat` (`id` and
the four counts carry `u16` values, `opcode` a 4-bit value). -/
structure DnsHeader where
  id : Nat
  recursion_desired : Bool
  truncated_message : Bool
  authoritative_answer : Bool
  opcode : Nat
  response : Bool
  rescode : ResultCode
  checking_disabled : Bool
  authed_data : Bool
  z : Bool
  recursion_available : Bool
  questions : Nat
  answers : Nat
  authoritative_entries : Nat
  resource_entries : Nat
deriving Repr, DecidableEq

/-- `DnsHeader::new()`. -/
def DnsHeader.new : DnsHeader :=
  { id := 0
    recursion_desired := false
    truncated_message := false
    authoritative_answer := false
    opcode := 0
    response := false
    rescode := .NOERROR
    checking_disabled := false
    authed_data := false
    z := false
    recursion_available := false
    questions := 0
    answers := 0
    authoritative_entries := 0
    resource_entries := 0 }

/-- A Rust `bool as u8` cast. -/
def boolNum (x : Bool) : Nat := if x then 1 else 0

/-- A Rust `u8` left shift: the result stays a byte, high bits fall off. -/
def u8shl (x k : Nat) : Nat := (x <<< k) % 256

/-- `DnsHeader::read`: 12 bytes from the buffer cursor.  The source
overwrites every field of `self`, so the embedding returns a freshly
assembled header. -/
def DnsHeader.read (buffer : BytePacketBuffer) :
    Res (DnsHeader × BytePacketBuffer) := do
  let (id, buffer) ← buffer.read_u16
  let (flags, buffer) ← buffer.read_u16
  let a := (flags >>> 8) % 256
  let b := flags &&& 0xFF
  let (questions, buffer) ← buffer.read_u16
  let (answers, buffer) ← buffer.read_u16
  let (authoritative_entries, buffer) ← buffer.read_u16
  let (resource_entries, buffer) ← buffer.read_u16
  pure
    ({ id := id
       recursion_desired := (a &&& (1 <<< 0)) > 0
       truncated_message := (a &&& (1 <<< 1)) > 0
       authoritative_answer := (a &&& (1 <<< 2)) > 0
       opcode := (a >>> 3) &&& 0x0F
       response := (a &&& (1 <<< 7)) > 0
       rescode := ResultCode.from_num (b &&& 0x0F)
       checking_disabled := (b &&& (1 <<< 4)) > 0
       authed_data := (b &&& (1 <<< 5)) > 0
       z := (b &&& (1 <<< 6)) > 0
       recursion_available := (b &&& (1 <<< 7)) > 0
       questions := questions
       answers := answers
       authoritative_entries := authoritative_entries
       resource_entries := resource_entries }, buffer)

/-- `DnsHeader::write`: id, the two flag bytes, the four counts.  The
section counts are written exactly as stored in the header; this function
does not consult any section list. -/
def DnsHeader.write (h : DnsHeader) (buffer : BytePacketBuffer) :
    Res BytePacketBuffer := do
  let buffer ← buffer.write_u16 h.id
  let buffer ← buffer.write_u8
    (boolNum h.recursion_desired
      ||| u8shl (boolNum h.truncated_message) 1
      ||| u8shl (boolNum h.authoritative_answer) 2
      ||| u8shl (h.opcode % 256) 3
      ||| u8shl (boolNum h.response) 7)
  let buffer ← buffer.write_u8
    (h.rescode.toNum
      ||| u8shl (boolNum h.checking_disabled) 4
      ||| u8shl (boolNum h.authed_data) 5
      ||| u8shl (boolNum h.z) 6
      ||| u8shl (boolNum h.recursion_available) 7)
  let buffer ← buffer.write_u16 h.questions
  let buffer ← buffer.write_u16 h.answers
  let buffer ← buffer.write_u16 h.authoritative_entries
  buffer.write_u16 h.resource_entries

/-- `struct DnsQuestion` of `main.rs`. -/
structure DnsQuestion where
  name : List Nat
  question_type : QueryType
deriving Repr, DecidableEq

/-- `DnsQuestion::new`. -/
def DnsQuestion.new (name : List Nat) (question_type : QueryType) :
    DnsQuestion :=
  { name := name, question_type := question_type }

/-- `DnsQuestion::read`: the name is appended to `self.name` (the source
passes `&mut self.name` to `read_qname`), the type is decoded, the class
is read and discarded. -/
def DnsQuestion.read (q : DnsQuestion) (buffer : BytePacketBuffer) :
    Res (DnsQuestion × BytePacketBuffer) := do
  let (name, buffer) ← buffer.read_qname q.name
  let (qt, buffer) ← buffer.read_u16
  let (_, buffer) ← buffer.read_u16
  pure ({ name := name, question_type := QueryType.from_num qt }, buffer)

/-- `DnsQuestion::write`: name, type, class `1`. -/
def DnsQuestion.write (q : DnsQuestion) (buffer : BytePacketBuffer) :
    Res BytePacketBuffer := do
  let buffer ← buffer.write_qname q.name
  let buffer ← buffer.write_u16 q.question_type.to_num
  buffer.write_u16 1

/-- `std::net::Ipv4Addr`: four octets. -/
structure Ipv4Addr where
  o0 : Nat
  o1 : Nat
  o2 : Nat
  o3 : Nat
deriving Repr, DecidableEq

/-- `std::net::Ipv6Addr`: eight 16-bit segments. -/
structure Ipv6Addr where
  s0 : Nat
  s1 : Nat
  s2 : Nat
  s3 : Nat
  s4 : Nat
  s5 : Nat
  s6 : Nat
  s7 : Nat
deriving Repr, DecidableEq

/-- `enum DnsRecord` of `main.rs`. -/
inductive DnsRecord where
  | UNKNOWN (domain : List Nat) (qtype : Nat) (data_len : Nat) (ttl : Nat)
  | A (domain : List Nat) (addr : Ipv4Addr) (ttl : Nat)
  | NS (domain : List Nat) (host : List Nat) (ttl : Nat)
  | CNAME (domain : List Nat) (host : List Nat) (ttl : Nat)
  | MX (domain : List Nat) (priority : Nat) (host : List Nat) (ttl : Nat)
  | AAAA (domain : List Nat) (addr : Ipv6Addr) (ttl : Nat)
deriving Repr, DecidableEq

/-- `DnsRecord::read`: common prefix (domain, type, class, ttl, rdlength),
then the type-directed payload; the `Ipv4Addr::new`/`Ipv6Addr::new` octet
and segment extractions are as in the source. -/
def DnsRecord.read (buffer : BytePacketBuffer) :
    Res (DnsRecord × BytePacketBuffer) := do
  let (domain, buffer) ← buffer.read_qname []
  let (qtype_num, buffer) ← buffer.read_u16
  let qtype := QueryType.from_num qtype_num
  let (_, buffer) ← buffer.read_u16
  let (ttl, buffer) ← buffer.read_u32
  let (data_len, buffer) ← buffer.read_u16
  match qtype with
  | .A => do
    let (raw_addr, buffer) ← buffer.read_u32
    let addr : Ipv4Addr :=
      { o0 := (raw_addr >>> 24) &&& 0xFF
        o1 := (raw_addr >>> 16) &&& 0xFF
        o2 := (raw_addr >>> 8) &&& 0xFF
        o3 := (raw_addr >>> 0) &&& 0xFF }
    pure (.A domain addr ttl, buffer)
  | .NS => do
    let (ns, buffer) ← buffer.read_qname []
    pure (.NS domain ns ttl, buffer)
  | .CNAME => do
    let (cname, buffer) ← buffer.read_qname []
    pure (.CNAME domain cname ttl, buffer)
  | .MX => do
    let (priority, buffer) ← buffer.read_u16
    let (mx, buffer) ← buffer.read_qname []
    pure (.MX domain priority mx ttl, buffer)
  | .AAAA => do
    let (raw_addr1, buffer) ← buffer.read_u32
    let (raw_addr2, buffer) ← buffer.read_u32
    let (raw_addr3, buffer) ← buffer.read_u32
    let (raw_addr4, buffer) ← buffer.read_u32
    let addr : Ipv6Addr :=
      { s0 := (raw_addr1 >>> 16) &&& 0xFFFF
        s1 := (raw_addr1 >>> 0) &&& 0xFFFF
        s2 := (raw_addr2 >>> 16) &&& 0xFFFF
        s3 := (raw_addr2 >>> 0) &&& 0xFFFF
        s4 := (raw_addr3 >>> 16) &&& 0xFFFF
        s5 := (raw_addr3 >>> 0) &&& 0xFFFF
        s6 := (raw_addr4 >>> 16) &&& 0xFFFF
        s7 := (raw_addr4 >>> 0) &&& 0xFFFF }
    pure (.AAAA domain addr ttl, buffer)
  | .UNKNOWN _ => do
    let buffer ← buffer.step data_len
    pure (.UNKNOWN domain qtype_num data_len ttl, buffer)

/-- `DnsRecord::write`: returns the number of bytes written.  For NS,
CNAME and MX a zero rdlength placeholder is written, the host name is
serialized, and the length is patched back with the unchecked absolute
write `set_u16`.  UNKNOWN records are only logged and write nothing. -/
def DnsRecord.write (r : DnsRecord) (buffer : BytePacketBuffer) :
    Res (Nat × BytePacketBuffer) := do
  let start_pos := buffer.pos
  match r with
  | .A domain addr ttl => do
    let buffer ← buffer.write_qname domain
    let buffer ← buffer.write_u16 QueryType.A.to_num
    let buffer ← buffer.write_u16 1
    let buffer ← buffer.write_u32 ttl
    let buffer ← buffer.write_u16 4
    let buffer ← buffer.write_u8 addr.o0
    let buffer ← buffer.write_u8 addr.o1
    let buffer ← buffer.write_u8 addr.o2
    let buffer ← buffer.write_u8 addr.o3
    pure (buffer.pos - start_pos, buffer)
  | .NS domain host ttl => do
    let buffer ← buffer.write_qname domain
    let buffer ← buffer.write_u16 QueryType.NS.to_num
    let buffer ← buffer.write_u16 1
    let buffer ← buffer.write_u32 ttl
    let pos := buffer.pos
    let buffer ← buffer.write_u16 0
    let buffer ← buffer.write_qname host
    let size := buffer.pos - (pos + 2)
    let buffer ← buffer.set_u16 pos (size % 65536)
    pure (buffer.pos - start_pos, buffer)
  | .MX domain priority host ttl => do
    let buffer ← buffer.write_qname domain
    let buffer ← buffer.write_u16 QueryType.MX.to_num
    let buffer ← buffer.write_u16 1
    let buffer ← buffer.write_u32 ttl
    let pos := buffer.pos
    let buffer ← buffer.write_u16 0
    let buffer ← buffer.write_u16 priority
    let buffer ← buffer.write_qname host
    let size := buffer.pos - (pos + 2)
    let buffer ← buffer.set_u16 pos (size % 65536)
    pure (buffer.pos - start_pos, buffer)
  | .CNAME domain host ttl => do
    let buffer ← buffer.write_qname domain
    let buffer ← buffer.write_u16 QueryType.CNAME.to_num
    let buffer ← buffer.write_u16 1
    let buffer ← buffer.write_u32 ttl
    let pos := buffer.pos
    let buffer ← buffer.write_u16 0
    let buffer ← buffer.write_qname host
    let size := buffer.pos - (pos + 2)
    let buffer ← buffer.set_u16 pos (size % 65536)
    pure (buffer.pos - start_pos, buffer)
  | .AAAA domain addr ttl => do
    let buffer ← buffer.write_qname domain
    let buffer ← buffer.write_u16 QueryType.AAAA.to_num
    let buffer ← buffer.write_u16 1
    let buffer ← buffer.write_u32 ttl
    let buffer ← buffer.write_u16 16
    let buffer ← buffer.write_u16 addr.s0
    let buffer ← buffer.write_u16 addr.s1
    let buffer ← buffer.write_u16 addr.s2
    let buffer ← buffer.write_u16 addr.s3
    let buffer ← buffer.write_u16 addr.s4
    let buffer ← buffer.write_u16 addr.s5
    let buffer ← buffer.write_u16 addr.s6
    let buffer ← buffer.write_u16 addr.s7
    pure (buffer.pos - start_pos, buffer)
  | .UNKNOWN _ _ _ _ =>
    pure (buffer.pos - start_pos, buffer)

/-- `struct DnsPacket` of `main.rs`. -/
structure DnsPacket where
  header : DnsHeader
  questions : List DnsQuestion
  answers : List DnsRecord
  authorities : List DnsRecord
  resources : List DnsRecord
deriving Repr, DecidableEq

/-- `DnsPacket::new()`. -/
def DnsPacket.new : DnsPacket :=
  { header := DnsHeader.new
    questions := []
    answers := []
    authorities := []
    resources := [] }

/-- The `for _ in 0..header.questions` loop of `from_buffer`: each
iteration reads into a fresh `DnsQuestion::new("", UNKNOWN(0))`. -/
def readQuestions (n : Nat) (buffer : BytePacketBuffer) :
    Res (List DnsQuestion × BytePacketBuffer) :=
  match n with
  | 0 => .ok ([], buffer)
  | n + 1 => do
    let (q, buffer) ← (DnsQuestion.new [] (.UNKNOWN 0)).read buffer
    let (rest, buffer) ← readQuestions n buffer
    pure (q :: rest, buffer)

/-- A `for _ in 0..count { DnsRecord::read }` loop of `from_buffer`. -/
def readRecords (n : Nat) (buffer : BytePacketBuffer) :
    Res (List DnsRecord × BytePacketBuffer) :=
  match n with
  | 0 => .ok ([], buffer)
  | n + 1 => do
    let (rec, buffer) ← DnsRecord.read buffer
    let (rest, buffer) ← readRecords n buffer
    pure (rec :: rest, buffer)

/-- `DnsPacket::from_buffer`: header, then as many questions, answers,
authorities and resources as the header counts dictate. -/
def DnsPacket.from_buffer (buffer : BytePacketBuffer) :
    Res (DnsPacket × BytePacketBuffer) := do
  let (header, buffer) ← DnsHeader.read buffer
  let (questions, buffer) ← readQuestions header.questions buffer
  let (answers, buffer) ← readRecords header.answers buffer
  let (authorities, buffer) ← readRecords header.authoritative_entries buffer
  let (resources, buffer) ← readRecords header.resource_entries buffer
  pure
    ({ header := header
       questions := questions
       answers := answers
       authorities := authorities
       resources := resources }, buffer)

/-- The `for question in &self.questions` loop of `DnsPacket::write`. -/
def writeQuestions (buffer : BytePacketBuffer) :
    List DnsQuestion → Res BytePacketBuffer
  | [] => .ok buffer
  | q :: rest => do
    let buffer ← q.write buffer
    writeQuestions buffer rest

/-- A `for rec in &section { rec.write(buffer)?; }` loop of
`DnsPacket::write`; the byte count each record write returns is
discarded, as in the source. -/
def writeRecords (buffer : BytePacketBuffer) :
    List DnsRecord → Res BytePacketBuffer
  | [] => .ok buffer
  | r :: rest => do
    let (_, buffer) ← r.write buffer
    writeRecords buffer rest

/-- `DnsPacket::write`: the header exactly as stored (`self.header` is
not modified — in particular no section count is recomputed), then the
four sections in order. -/
def DnsPacket.write (p : DnsPacket) (buffer : BytePacketBuffer) :
    Res BytePacketBuffer := do
  let buffer ← p.header.write buffer
  let buffer ← writeQuestions buffer p.questions
  let buffer ← writeRecords buffer p.answers
  let buffer ← writeRecords buffer p.authorities
  writeRecords buffer p.resources

/-- The response-construction part of `handle_query` (`main.rs` lines
774–814).  `lookup_result` stands for the outcome of the network call
`lookup(&question.name, question.question_type)`, which the embedding
cannot perform: `some result` is `Ok(result)`, `none` is any `Err`.
`request.questions.pop()` pops the *last* question of the vector. -/
def buildResponsePacket (request : DnsPacket)
    (lookup_result : Option DnsPacket) : DnsPacket :=
  let packet :=
    { DnsPacket.new with
        header :=
          { DnsHeader.new with
              id := request.header.id
              recursion_desired := true
              recursion_available := true
              response := true } }
  match request.questions.getLast? with
  | some question =>
    match lookup_result with
    | some result =>
      { packet with
          questions := packet.questions ++ [question]
          header := { packet.header with rescode := result.header.rescode }
          answers := packet.answers ++ result.answers
          authorities := packet.authorities ++ result.authorities
          resources := packet.resources ++ result.resources }
    | none =>
      { packet with
          header := { packet.header with rescode := .SERVFAIL } }
  | none =>
    { packet with
        header := { packet.header with rescode := .FORMERR } }

/-- `handle_query` (`main.rs` lines 758–826) with the sockets abstracted
away: the received datagram is `req_buffer`, the `lookup` outcome is the
`lookup_result` oracle, and the returned value is the datagram sent back.
Every `?` of the source is a monadic bind, so a failing
`DnsPacket::from_buffer` (or a failing reply serialization) makes
`handle_query` itself fail, and no reply is produced. -/
def handle_query (req_buffer : BytePacketBuffer)
    (lookup_result : Option DnsPacket) : Res (List Nat) := do
  let (request, _) ← DnsPacket.from_buffer req_buffer
  let packet := buildResponsePacket request lookup_result
  let res_buffer := BytePacketBuffer.new
  let res_buffer ← packet.write res_buffer
  let len := res_buffer.pos
  let data ← res_buffer.get_range 0 len
  pure data

/-- What one iteration of the `loop` in `recursive_lookup`
(`dns_lookup.rs` lines 50–98) decides after `lookup` has returned
`response`. -/
inductive ResolverStep where
  | done (response : DnsPacket)
  | continueWith (ns : Ipv4Addr)
deriving Repr, DecidableEq

/-- The routing decision of one `recursive_lookup` iteration on a
received response (`dns_lookup.rs` lines 58–97).  The three helpers
`get_resolved_ns`, `get_unresolved_ns` and `get_random_a_record` are
declared on `DnsPacket` outside the files of this repository's `src`
tree, and the nested `recursive_lookup(&new_ns_name, A)` performs
network I/O, so their outcomes are oracles: `resolved_ns` is
`response.get_resolved_ns(qname)`, `unresolved_ns` is
`response.get_unresolved_ns(qname)`, and `recursive_a` is
`recursive_lookup(new_ns_name, A)` followed by `get_random_a_record()`.
The decision between returning the response and retrying with a new
server is exactly the source's. -/
def recursiveLookupStep (response : DnsPacket)
    (resolved_ns : Option Ipv4Addr) (unresolved_ns : Option (List Nat))
    (recursive_a : Option Ipv4Addr) : ResolverStep :=
  if ¬response.answers.isEmpty ∧ response.header.rescode = .NOERROR then
    .done response
  else if response.header.rescode = .NXDOMAIN then
    .done response
  else
    match resolved_ns with
    | some new_ns => .continueWith new_ns
    | none =>
      match unresolved_ns with
      | none => .done response
      | some _ =>
        match recursive_a with
        | some new_ns => .continueWith new_ns
        | none => .done response

/-! ## Helper lemmas: list indexing and byte arithmetic -/

theorem new_buf_length : BytePacketBuffer.new.buf.length = 512 := by
  show (List.replicate 512 0).length = 512
  rw [List.length_replicate]

theorem getD_set_self (l : List Nat) (i v : Nat) (h : i < l.length) :
    (l.set i v).getD i 0 = v := by
  rw [List.getD_eq_getElem?_getD, List.getElem?_set_self h]
  rfl

theorem getD_set_ne (l : List Nat) (i j v : Nat) (h : i ≠ j) :
    (l.set i v).getD j 0 = l.getD j 0 := by
  rw [List.getD_eq_getElem?_getD, List.getElem?_set_ne h,
    ← List.getD_eq_getElem?_getD]

theorem and255_eq_mod (x : Nat) : x &&& 255 = x % 256 := by
  have h := Nat.and_pow_two_sub_one_eq_mod x 8
  norm_num at h
  omega

theorem or256_eq_add (x y : Nat) (hy : y < 256) :
    (x <<< 8) ||| y = 256 * x + y := by
  apply Nat.eq_of_testBit_eq
  intro i
  rw [Nat.testBit_lor, Nat.testBit_shiftLeft]
  rw [show (256 * x + y) = 2 ^ 8 * x + y by ring]
  rw [Nat.testBit_mul_pow_two_add x (by omega : y < 2 ^ 8) i]
  by_cases h : i < 8
  · simp [h, Nat.not_le.mpr h]
  · have h8 : 8 ≤ i := by omega
    have hy2 : y < 2 ^ i := by
      calc y < 256 := hy
        _ = 2 ^ 8 := by norm_num
        _ ≤ 2 ^ i := Nat.pow_le_pow_right (by omega) h8
    simp [h8, Nat.testBit_lt_two_pow hy2]

/-- Decoding the two bytes `write_u16` produced gives the value back. -/
theorem dec16 (v : Nat) (hv : v < 65536) :
    (((v >>> 8) % 256) <<< 8) ||| ((v &&& 255) % 256) = v := by
  rw [Nat.shiftRight_eq_div_pow, and255_eq_mod]
  norm_num
  rw [or256_eq_add _ _ (by omega : v % 256 < 256)]
  omega

/-- The high byte of a `read_u16` result, as `DnsHeader::read` extracts it. -/
theorem hi_of_or256 (x y : Nat) (hx : x < 256) (hy : y < 256) :
    (((x <<< 8) ||| y) >>> 8) % 256 = x := by
  rw [or256_eq_add _ _ hy, Nat.shiftRight_eq_div_pow]
  norm_num
  omega

/-- The low byte of a `read_u16` result. -/
theorem lo_of_or256 (x y : Nat) (hy : y < 256) :
    ((x <<< 8) ||| y) &&& 255 = y := by
  rw [or256_eq_add _ _ hy, and255_eq_mod]
  omega

/-! ## Helper lemmas: single buffer operations -/

theorem write_ok (b : BytePacketBuffer) (v : Nat) (h : b.pos < 512) :
    b.write v = .ok { buf := b.buf.set b.pos v, pos := b.pos + 1 } := by
  simp [BytePacketBuffer.write, Nat.not_le.mpr h]

theorem read_ok (b : BytePacketBuffer) (h : b.pos < 512) :
    b.read = .ok (b.buf.getD b.pos 0, { b with pos := b.pos + 1 }) := by
  simp [BytePacketBuffer.read, Nat.not_le.mpr h]

theorem write_u16_ok (b : BytePacketBuffer) (v : Nat) (h : b.pos + 2 ≤ 512) :
    b.write_u16 v =
      .ok { buf := (b.buf.set b.pos ((v >>> 8) % 256)).set (b.pos + 1)
                     ((v &&& 255) % 256),
            pos := b.pos + 2 } := by
  rw [BytePacketBuffer.write_u16]
  rw [write_ok _ _ (by omega)]
  show Res.bind _ _ = _
  rw [Res.bind]
  rw [write_ok _ _ (by simp; omega)]

/-! ## C4: QueryType round-trip -/

/-- C4 (counterexample): the spec's round-trip law fails on
`UNKNOWN(1)`: `to_num` yields `1`, which `from_num` maps to `A`. -/
theorem c4_unknown_one_breaks_roundtrip :
    QueryType.from_num (QueryType.to_num (.UNKNOWN 1)) ≠ .UNKNOWN 1 := by
  decide

/-- C4 (amended): `from_num (to_num x) = x` holds for the five named
query types, and for `UNKNOWN n` exactly when `n` is not one of the five
assigned numbers 1, 2, 5, 15, 28. -/
theorem c4_roundtrip_away_from_assigned (x : QueryType)
    (h : ∀ n, x = .UNKNOWN n → n ≠ 1 ∧ n ≠ 2 ∧ n ≠ 5 ∧ n ≠ 15 ∧ n ≠ 28) :
    QueryType.from_num (QueryType.to_num x) = x := by
  cases x with
  | UNKNOWN n =>
    obtain ⟨h1, h2, h5, h15, h28⟩ := h n rfl
    show QueryType.from_num n = .UNKNOWN n
    unfold QueryType.from_num
    split
    · omega
    · omega
    · omega
    · omega
    · omega
    · rfl
  | A => rfl
  | NS => rfl
  | CNAME => rfl
  | MX => rfl
  | AAAA => rfl

/-- C4 (witness): the amended round-trip at the concrete inputs `MX` and
`UNKNOWN 7`. -/
theorem c4_roundtrip_witness :
    QueryType.from_num (QueryType.to_num .MX) = .MX ∧
      QueryType.from_num (QueryType.to_num (.UNKNOWN 7)) = .UNKNOWN 7 :=
  ⟨c4_roundtrip_away_from_assigned .MX (by intro n hn; cases hn),
   c4_roundtrip_away_from_assigned (.UNKNOWN 7)
     (by intro n hn; cases hn; omega)⟩

/-! ## C9: resolver return decisions -/

/-- C9: one `recursive_lookup` iteration returns the received response as
final result whenever its rescode is NXDOMAIN (whatever the answer
section holds), and whenever its rescode is NOERROR and the answer
section is non-empty — independently of what the name-server-selection
helpers would produce. -/
theorem c9_resolver_returns_response (response : DnsPacket)
    (resolved_ns : Option Ipv4Addr) (unresolved_ns : Option (List Nat))
    (recursive_a : Option Ipv4Addr) :
    (response.header.rescode = .NXDOMAIN →
      recursiveLookupStep response resolved_ns unresolved_ns recursive_a =
        .done response) ∧
    (response.header.rescode = .NOERROR → response.answers ≠ [] →
      recursiveLookupStep response resolved_ns unresolved_ns recursive_a =
        .done response) := by
  constructor
  · intro hx
    unfold recursiveLookupStep
    rw [if_neg, if_pos hx]
    rintro ⟨-, hc⟩
    rw [hx] at hc
    cases hc
  · intro hok hne
    unfold recursiveLookupStep
    rw [if_pos]
    exact ⟨by simpa using hne, hok⟩

/-- C9 (witness): the NXDOMAIN short-circuit and the non-empty-NOERROR
return at concrete packets. -/
theorem c9_resolver_witness :
    recursiveLookupStep
        { DnsPacket.new with
            header := { DnsHeader.new with rescode := .NXDOMAIN } }
        (some ⟨1, 2, 3, 4⟩) (some [97]) none =
      .done { DnsPacket.new with
                header := { DnsHeader.new with rescode := .NXDOMAIN } } ∧
    recursiveLookupStep
        { DnsPacket.new with answers := [.A [97] ⟨1, 2, 3, 4⟩ 60] }
        (some ⟨1, 2, 3, 4⟩) (some [97]) none =
      .done { DnsPacket.new with answers := [.A [97] ⟨1, 2, 3, 4⟩ 60] } :=
  ⟨(c9_resolver_returns_response _ _ _ _).1 rfl,
   (c9_resolver_returns_response _ _ _ _).2 rfl (by decide)⟩

/-! ## C10: the unchecked absolute writes `set` / `set_u16` -/

/-- C10: `set_u16` performs no bounds check of its own.  For `p + 1 < 512`
it stores the two big-endian bytes of `v` at `p` and `p + 1`, leaves the
cursor and every other byte unchanged; it never produces the
`End of buffer` error for any `p`; and for `p ≥ 511` the Rust array
indexing itself is out of bounds, so the call cannot return normally
(it panics). -/
theorem c10_set_u16_unchecked (b : BytePacketBuffer) (p v : Nat)
    (hlen : b.buf.length = 512) :
    (p + 1 < 512 →
      ∃ b', b.set_u16 p v = .ok b' ∧ b'.pos = b.pos ∧
        b'.buf.getD p 0 = (v >>> 8) % 256 ∧
        b'.buf.getD (p + 1) 0 = (v &&& 0xFF) % 256 ∧
        ∀ i, i ≠ p → i ≠ p + 1 → b'.buf.getD i 0 = b.buf.getD i 0) ∧
    (∀ e, b.set_u16 p v ≠ .err e) ∧
    (511 ≤ p → b.set_u16 p v = .panic) := by
  refine ⟨?_, ?_, ?_⟩
  · intro hp
    refine ⟨{ buf := (b.buf.set p ((v >>> 8) % 256)).set (p + 1)
                ((v &&& 0xFF) % 256), pos := b.pos }, ?_, rfl, ?_, ?_, ?_⟩
    · show (b.set p ((v >>> 8) % 256)).bind _ = _
      rw [BytePacketBuffer.set, if_pos (by omega)]
      rw [Res.bind, BytePacketBuffer.set, if_pos hp]
    · rw [getD_set_ne _ _ _ _ (by omega : p + 1 ≠ p),
        getD_set_self _ _ _ (by rw [hlen]; omega)]
    · exact getD_set_self _ _ _ (by rw [List.length_set, hlen]; omega)
    · intro i hip hip1
      rw [getD_set_ne _ _ _ _ (Ne.symm hip1), getD_set_ne _ _ _ _ (Ne.symm hip)]
  · intro e
    show (b.set p ((v >>> 8) % 256)).bind _ ≠ _
    rw [BytePacketBuffer.set]
    by_cases hp : p < 512
    · rw [if_pos hp, Res.bind, BytePacketBuffer.set]
      by_cases hp1 : p + 1 < 512
      · rw [if_pos hp1]
        intro h
        cases h
      · rw [if_neg hp1]
        intro h
        cases h
    · rw [if_neg hp]
      rw [Res.bind]
      intro h
      cases h
  · intro hp
    show (b.set p ((v >>> 8) % 256)).bind _ = _
    rw [BytePacketBuffer.set]
    by_cases hp' : p < 512
    · rw [if_pos hp', Res.bind, BytePacketBuffer.set, if_neg (by omega)]
    · rw [if_neg hp', Res.bind]

/-- C10 (witness): `set_u16` at position 100 of a fresh buffer stores the
two bytes of `0xABCD` there with the cursor untouched, and at position
511 it panics. -/
theorem c10_set_u16_witness :
    (∃ b', BytePacketBuffer.new.set_u16 100 0xABCD = .ok b' ∧
      b'.pos = BytePacketBuffer.new.pos ∧
      b'.buf.getD 100 0 = (0xABCD >>> 8) % 256 ∧
      b'.buf.getD 101 0 = (0xABCD &&& 0xFF) % 256 ∧
      ∀ i, i ≠ 100 → i ≠ 101 →
        b'.buf.getD i 0 = BytePacketBuffer.new.buf.getD i 0) ∧
    BytePacketBuffer.new.set_u16 511 0xABCD = .panic :=
  ⟨(c10_set_u16_unchecked BytePacketBuffer.new 100 0xABCD new_buf_length).1
      (by omega),
   (c10_set_u16_unchecked BytePacketBuffer.new 511 0xABCD new_buf_length).2.2
      (by omega)⟩

set_option maxRecDepth 4000

/-! ## C1 and C2: `handle_query` and the header counts -/

/-- A 512-byte request datagram: id 7, one question, and at offset 12 the
question name `C0 0E C0 0C` — two compression pointers forming a cycle,
so parsing the question fails. -/
def cycReq : BytePacketBuffer :=
  { buf := [0, 1, 0, 0, 0, 1, 0, 0, 0, 0, 0, 0, 0xC0, 0x0E, 0xC0, 0x0C]
      ++ List.replicate 496 0,
    pos := 0 }

/-- A well-formed 512-byte request datagram: id 7, one question for name
`"a"` with qtype A, class IN. -/
def oneQReq : BytePacketBuffer :=
  { buf := [0, 7, 0, 0, 0, 1, 0, 0, 0, 0, 0, 0, 1, 97, 0, 0, 1, 0, 1]
      ++ List.replicate 493 0,
    pos := 0 }

/-- The packet `DnsPacket::from_buffer` produces on `oneQReq`. -/
def c1Request : DnsPacket :=
  { header := { DnsHeader.new with id := 7, questions := 1 }
    questions := [{ name := [97], question_type := .A }]
    answers := []
    authorities := []
    resources := [] }

/-- The reply `handle_query` builds for `oneQReq` when the forwarded
lookup returns `Ok` with an empty packet. -/
def c1Reply : DnsPacket := buildResponsePacket c1Request (some DnsPacket.new)

/-- The datagram `handle_query` would send for that reply: the written
prefix of the response buffer. -/
def c1WireBytes : List Nat :=
  match c1Reply.write BytePacketBuffer.new with
  | .ok b => b.buf.take b.pos
  | _ => []

/-- C1: `DnsPacket::write` does not set the header counts from the
section lengths.  Parsing `oneQReq` yields `c1Request`; the reply
`handle_query` builds from it carries one question in its question
section while its header count `questions` is still 0, and the wire bytes
the reply serializes to have `00 00` as the question count (bytes 4–5)
followed by the encoded question — a packet that violates the spec's
count/section invariant. -/
theorem c1_counts_not_synced_on_write :
    DnsPacket.from_buffer oneQReq = .ok (c1Request, { oneQReq with pos := 19 }) ∧
    c1Reply.questions.length = 1 ∧
    c1Reply.header.questions = 0 ∧
    c1WireBytes =
      [0, 7, 129, 128, 0, 0, 0, 0, 0, 0, 0, 0, 1, 97, 0, 0, 1, 0, 1] := by
  refine ⟨by decide, by decide, by decide, by decide⟩

/-- C2 (counterexample): a request whose question fails to parse (a
compression-pointer cycle) makes `handle_query` itself return the codec
error instead of synthesizing a FORMERR reply: the failure is propagated
to the caller and no reply datagram is produced. -/
theorem c2_parse_failure_propagates :
    DnsPacket.from_buffer cycReq = .err jumpLimitMsg ∧
    handle_query cycReq none = .err jumpLimitMsg := by
  refine ⟨by decide, by decide⟩

/-- C2 (amended): `handle_query` propagates any failure of
`DnsPacket::from_buffer` on the inbound datagram to its caller (sending
no reply); only once the request is parsed does it synthesize rescodes:
FORMERR when the parsed request holds no question, SERVFAIL when a
question is present but the forwarded lookup fails. -/
theorem c2_error_handling_amended (req : BytePacketBuffer)
    (lk : Option DnsPacket) :
    (∀ e, DnsPacket.from_buffer req = .err e → handle_query req lk = .err e) ∧
    (∀ request rest, DnsPacket.from_buffer req = .ok (request, rest) →
      (request.questions = [] →
        (buildResponsePacket request lk).header.rescode = .FORMERR) ∧
      (request.questions ≠ [] → lk = none →
        (buildResponsePacket request lk).header.rescode = .SERVFAIL)) := by
  constructor
  · intro e h
    simp [handle_query, h, Bind.bind, Res.bind]
  · intro request rest _
    constructor
    · intro hq
      simp [buildResponsePacket, List.getLast?_eq_none_iff.mpr hq]
    · intro hq hlk
      obtain ⟨q, hlast⟩ :=
        Option.isSome_iff_exists.mp (List.getLast?_isSome.mpr hq)
      subst hlk
      simp [buildResponsePacket, hlast]

/-- C2 (witness): the three behaviors at concrete inputs — propagation
of the cyclic-name parse failure, FORMERR for a request without
questions, SERVFAIL for a request whose lookup fails. -/
theorem c2_error_handling_witness :
    handle_query cycReq none = .err jumpLimitMsg ∧
    (buildResponsePacket DnsPacket.new none).header.rescode = .FORMERR ∧
    (buildResponsePacket c1Request none).header.rescode = .SERVFAIL :=
  ⟨(c2_error_handling_amended cycReq none).1 jumpLimitMsg (by decide),
   ((c2_error_handling_amended BytePacketBuffer.new none).2 DnsPacket.new
       { BytePacketBuffer.new with pos := 12 } (by decide)).1 rfl,
   ((c2_error_handling_amended oneQReq none).2 c1Request
       { oneQReq with pos := 19 } (by decide)).2 (by decide) rfl⟩

/-! ## C3: cursor stays within 512 for the checked operations -/

theorem get_ok_iff (b : BytePacketBuffer) (p v : Nat) :
    b.get p = .ok v ↔ p < 512 ∧ b.buf.getD p 0 = v := by
  unfold BytePacketBuffer.get
  split
  · constructor
    · intro h
      cases h
    · omega
  · constructor
    · intro h
      cases h
      omega
    · rintro ⟨-, rfl⟩
      rfl

/-- The `read_qname` loop keeps the shared cursor within bounds: on
success the returned local cursor is at most 512; if a jump was already
performed before entry the buffer is returned untouched; and starting
un-jumped, the buffer is untouched unless a jump occurred, in which case
its cursor was moved to at most 512. -/
theorem readQnameLoop_pos :
    ∀ (fuel : Nat) (b : BytePacketBuffer) (qp : Nat) (jumped : Bool)
      (j : Nat) (delim out o : List Nat) (q : Nat) (jf : Bool)
      (bf : BytePacketBuffer),
      readQnameLoop fuel b qp jumped j delim out = .ok (o, q, jf, bf) →
      q ≤ 512 ∧
      (jumped = true → jf = true ∧ bf = b) ∧
      (jumped = false →
        (jf = true → bf.pos ≤ 512) ∧ (jf = false → bf = b)) := by
  intro fuel
  induction fuel with
  | zero =>
    intro b qp jumped j delim out o q jf bf h
    exact absurd h (by simp [readQnameLoop])
  | succ fuel ih =>
    intro b qp jumped j delim out o q jf bf h
    rw [readQnameLoop] at h
    split at h
    · cases h
    · split at h
      · cases h
      · cases h
      · rename_i len hget
        obtain ⟨hqp, -⟩ := (get_ok_iff b qp len).mp hget
        by_cases hptr : len &&& 192 = 192
        · rw [if_pos hptr] at h
          cases jumped with
          | false =>
            rw [if_pos (by simp : ¬false = true)] at h
            dsimp only at h
            split at h
            · cases h
            · cases h
            · rename_i b2 hget2
              obtain ⟨hq1, -⟩ := (get_ok_iff _ _ _).mp hget2
              obtain ⟨h1, h2, -⟩ := ih _ _ _ _ _ _ _ _ _ _ h
              obtain ⟨hjf, hbf⟩ := h2 rfl
              refine ⟨h1, ?_, ?_⟩
              · intro hc
                cases hc
              · intro hmm
                refine ⟨?_, ?_⟩
                · intro hmm2
                  rw [hbf]
                  show qp + 2 ≤ 512
                  omega
                · intro hc
                  rw [hjf] at hc
                  cases hc
          | true =>
            rw [if_neg (by simp : ¬¬true = true)] at h
            dsimp only at h
            split at h
            · cases h
            · cases h
            · rename_i b2 hget2
              obtain ⟨h1, h2, -⟩ := ih _ _ _ _ _ _ _ _ _ _ h
              obtain ⟨hjf, hbf⟩ := h2 rfl
              refine ⟨h1, ?_, ?_⟩
              · intro hmm
                exact ⟨hjf, hbf⟩
              · intro hc
                cases hc
        · rw [if_neg hptr] at h
          dsimp only at h
          by_cases hlen : len = 0
          · rw [if_pos hlen] at h
            cases h
            refine ⟨by omega, ?_, ?_⟩
            · intro hj
              exact ⟨hj, rfl⟩
            · intro hjf
              refine ⟨?_, fun _ => rfl⟩
              intro ht
              rw [hjf] at ht
              cases ht
          · rw [if_neg hlen] at h
            split at h
            · cases h
            · cases h
            · rename_i str_buffer hrange
              exact ih _ _ _ _ _ _ _ _ _ _ h

theorem bind_ok {α β : Type} {r : Res α} {f : α → Res β} {c : β}
    (h : r >>= f = .ok c) : ∃ a, r = .ok a ∧ f a = .ok c := by
  cases r with
  | ok a => exact ⟨a, rfl, h⟩
  | err e => cases h
  | panic => cases h

theorem read_pos_le {b : BytePacketBuffer} {v : Nat} {b' : BytePacketBuffer}
    (h : b.read = .ok (v, b')) : b'.pos ≤ 512 := by
  unfold BytePacketBuffer.read at h
  split at h
  · cases h
  · cases h
    rename_i hlt
    simp only
    omega

theorem write_pos_le {b : BytePacketBuffer} {v : Nat} {b' : BytePacketBuffer}
    (h : b.write v = .ok b') : b'.pos ≤ 512 := by
  unfold BytePacketBuffer.write at h
  split at h
  · cases h
  · cases h
    rename_i hlt
    simp only
    omega

theorem read_u16_pos_le {b : BytePacketBuffer} {v : Nat}
    {b' : BytePacketBuffer} (h : b.read_u16 = .ok (v, b')) : b'.pos ≤ 512 := by
  unfold BytePacketBuffer.read_u16 at h
  obtain ⟨⟨hi, b1⟩, h1, h⟩ := bind_ok h
  obtain ⟨⟨lo, b2⟩, h2, h⟩ := bind_ok h
  cases h
  exact read_pos_le h2

theorem read_u32_pos_le {b : BytePacketBuffer} {v : Nat}
    {b' : BytePacketBuffer} (h : b.read_u32 = .ok (v, b')) : b'.pos ≤ 512 := by
  unfold BytePacketBuffer.read_u32 at h
  obtain ⟨⟨x3, b1⟩, h1, h⟩ := bind_ok h
  obtain ⟨⟨x2, b2⟩, h2, h⟩ := bind_ok h
  obtain ⟨⟨x1, b3⟩, h3, h⟩ := bind_ok h
  obtain ⟨⟨x0, b4⟩, h4, h⟩ := bind_ok h
  cases h
  exact read_pos_le h4

theorem write_u16_pos_le {b : BytePacketBuffer} {v : Nat}
    {b' : BytePacketBuffer} (h : b.write_u16 v = .ok b') : b'.pos ≤ 512 := by
  unfold BytePacketBuffer.write_u16 at h
  obtain ⟨b1, h1, h⟩ := bind_ok h
  exact write_pos_le h

theorem write_u32_pos_le {b : BytePacketBuffer} {v : Nat}
    {b' : BytePacketBuffer} (h : b.write_u32 v = .ok b') : b'.pos ≤ 512 := by
  unfold BytePacketBuffer.write_u32 at h
  obtain ⟨b1, h1, h⟩ := bind_ok h
  obtain ⟨b2, h2, h⟩ := bind_ok h
  obtain ⟨b3, h3, h⟩ := bind_ok h
  exact write_pos_le h

theorem write_qname_pos_le {b : BytePacketBuffer} {n : List Nat}
    {b' : BytePacketBuffer} (h : b.write_qname n = .ok b') : b'.pos ≤ 512 := by
  unfold BytePacketBuffer.write_qname at h
  obtain ⟨b1, h1, h⟩ := bind_ok h
  exact write_pos_le h

theorem read_qname_pos_le {b : BytePacketBuffer} {out o : List Nat}
    {b' : BytePacketBuffer} (h : b.read_qname out = .ok (o, b')) :
    b'.pos ≤ 512 := by
  unfold BytePacketBuffer.read_qname at h
  split at h
  · cases h
  · cases h
  · rename_i res oo qq jj bb heq
    obtain ⟨h1, -, h3⟩ := readQnameLoop_pos _ _ _ _ _ _ _ _ _ _ _ heq
    obtain ⟨h31, h32⟩ := h3 rfl
    split at h
    · cases h
      rename_i hnj
      simp only
      exact h1
    · cases h
      rename_i hj
      exact h31 (not_not.mp hj)

/-- C3 (counterexample): `step` performs no bounds check: stepping a
fresh buffer by 600 succeeds and leaves `pos = 600 > 512`. -/
theorem c3_step_exceeds_512 :
    BytePacketBuffer.new.step 600 =
      .ok { buf := List.replicate 512 0, pos := 600 } ∧ ¬(600 ≤ 512) :=
  ⟨rfl, by omega⟩

/-- C3 (amended): every *checked* cursor-advancing operation (`read`,
`read_u16`, `read_u32`, `read_qname`, `write`, `write_u8`, `write_u16`,
`write_u32`, `write_qname`) leaves `pos ≤ 512` whenever it succeeds; but
`step` and `seek` succeed unconditionally with the requested position
(which may exceed 512), and the absolute writes `set`/`set_u16` never
move the cursor. -/
theorem c3_pos_invariant_amended :
    (∀ (b b' : BytePacketBuffer) (v : Nat),
      b.read = .ok (v, b') → b'.pos ≤ 512) ∧
    (∀ (b b' : BytePacketBuffer) (v : Nat),
      b.read_u16 = .ok (v, b') → b'.pos ≤ 512) ∧
    (∀ (b b' : BytePacketBuffer) (v : Nat),
      b.read_u32 = .ok (v, b') → b'.pos ≤ 512) ∧
    (∀ (b b' : BytePacketBuffer) (out o : List Nat),
      b.read_qname out = .ok (o, b') → b'.pos ≤ 512) ∧
    (∀ (b b' : BytePacketBuffer) (v : Nat),
      b.write v = .ok b' → b'.pos ≤ 512) ∧
    (∀ (b b' : BytePacketBuffer) (v : Nat),
      b.write_u8 v = .ok b' → b'.pos ≤ 512) ∧
    (∀ (b b' : BytePacketBuffer) (v : Nat),
      b.write_u16 v = .ok b' → b'.pos ≤ 512) ∧
    (∀ (b b' : BytePacketBuffer) (v : Nat),
      b.write_u32 v = .ok b' → b'.pos ≤ 512) ∧
    (∀ (b b' : BytePacketBuffer) (n : List Nat),
      b.write_qname n = .ok b' → b'.pos ≤ 512) ∧
    (∀ (b : BytePacketBuffer) (n : Nat),
      b.step n = .ok { b with pos := b.pos + n }) ∧
    (∀ (b : BytePacketBuffer) (p : Nat),
      b.seek p = .ok { b with pos := p }) ∧
    (∀ (b b' : BytePacketBuffer) (p v : Nat),
      b.set p v = .ok b' → b'.pos = b.pos) ∧
    (∀ (b b' : BytePacketBuffer) (p v : Nat),
      b.set_u16 p v = .ok b' → b'.pos = b.pos) := by
  refine ⟨fun b b' v h => read_pos_le h,
    fun b b' v h => read_u16_pos_le h,
    fun b b' v h => read_u32_pos_le h,
    fun b b' out o h => read_qname_pos_le h,
    fun b b' v h => write_pos_le h,
    fun b b' v h => write_pos_le h,
    fun b b' v h => write_u16_pos_le h,
    fun b b' v h => write_u32_pos_le h,
    fun b b' n h => write_qname_pos_le h,
    fun b n => rfl,
    fun b p => rfl,
    ?_, ?_⟩
  · intro b b' p v h
    unfold BytePacketBuffer.set at h
    split at h
    · cases h
      rfl
    · cases h
  · intro b b' p v h
    unfold BytePacketBuffer.set_u16 at h
    obtain ⟨b1, h1, h2⟩ := bind_ok h
    unfold BytePacketBuffer.set at h1 h2
    split at h1
    · cases h1
      split at h2
      · cases h2
        rfl
      · cases h2
    · cases h1

/-- C3 (witness): reads and writes on concrete buffers land within
bounds; `step` lands on 600. -/
theorem c3_pos_invariant_witness :
    ({ buf := List.replicate 512 0, pos := 1 } : BytePacketBuffer).pos ≤ 512 ∧
    BytePacketBuffer.new.step 600 =
      .ok { BytePacketBuffer.new with pos := BytePacketBuffer.new.pos + 600 } :=
  ⟨c3_pos_invariant_amended.1 BytePacketBuffer.new
      { buf := List.replicate 512 0, pos := 1 } 0 (by decide),
   c3_pos_invariant_amended.2.2.2.2.2.2.2.2.2.1 BytePacketBuffer.new 600⟩
/-! ## C7: the compression-pointer jump limit -/

/-- A pure compression-pointer chain in a buffer's bytes: `PointerChain
buf p n` says that at position `p` there are exactly `n` consecutive
pointer jumps (each target possibly again a pointer, each jump counting
once) ending at a zero length byte (an empty name).  This is the shape
of input C7 quantifies over. -/
inductive PointerChain (buf : List Nat) : Nat → Nat → Prop where
  | term (p : Nat) : p < 512 → buf.getD p 0 = 0 → PointerChain buf p 0
  | jump (p t n : Nat) : p + 1 < 512 → buf.getD p 0 &&& 0xC0 = 0xC0 →
      ((buf.getD p 0 ^^^ 0xC0) <<< 8) ||| buf.getD (p + 1) 0 = t →
      PointerChain buf t n → PointerChain buf p (n + 1)

/-- Terminating step of the read loop at a zero length byte. -/
theorem readQnameLoop_term (b : BytePacketBuffer) (j : Nat)
    (out delim : List Nat) (jumped : Bool) (p : Nat) (hj : j ≤ 5)
    (hp : p < 512) (h0 : b.buf.getD p 0 = 0) (fuel : Nat) :
    readQnameLoop (fuel + 1) b p jumped j delim out =
      .ok (out, p + 1, jumped, b) := by
  have hg : b.get p = .ok 0 := (get_ok_iff b p 0).mpr ⟨hp, h0⟩
  rw [readQnameLoop, if_neg (by simp [maxJumps]; omega : ¬j > maxJumps), hg]
  dsimp only
  rw [if_neg (by decide : ¬(0 &&& 192 = 192)), if_pos rfl]

/-- On a pointer chain of `n ≤ 5 - j` remaining jumps the loop succeeds
and appends nothing. -/
theorem chain_loop_ok (buf : List Nat) (p n : Nat)
    (hchain : PointerChain buf p n) :
    ∀ (b : BytePacketBuffer) (jumped : Bool) (j : Nat)
      (delim out : List Nat) (fuel : Nat),
      b.buf = buf → j + n ≤ 5 → n + 1 ≤ fuel →
      ∃ q jf bf,
        readQnameLoop fuel b p jumped j delim out = .ok (out, q, jf, bf) := by
  induction hchain with
  | term p hp h0 =>
    intro b jumped j delim out fuel hbuf hj hfuel
    obtain ⟨f, rfl⟩ : ∃ f, fuel = f + 1 := ⟨fuel - 1, by omega⟩
    exact ⟨p + 1, jumped, b,
      readQnameLoop_term b j out delim jumped p (by omega) hp
        (by rw [hbuf, h0]) f⟩
  | jump p t n hp hptr heq hrest ih =>
    intro b jumped j delim out fuel hbuf hj hfuel
    obtain ⟨f, rfl⟩ : ∃ f, fuel = f + 1 := ⟨fuel - 1, by omega⟩
    have hg : b.get p = .ok (buf.getD p 0) :=
      (get_ok_iff b p _).mpr ⟨by omega, by rw [hbuf]⟩
    rw [readQnameLoop, if_neg (by simp [maxJumps]; omega : ¬j > maxJumps), hg]
    dsimp only
    rw [if_pos hptr]
    cases jumped with
    | false =>
      rw [if_pos (by simp : ¬false = true)]
      have hg2 : BytePacketBuffer.get { buf := b.buf, pos := p + 2 } (p + 1) =
          .ok (buf.getD (p + 1) 0) :=
        (get_ok_iff _ _ _).mpr ⟨by omega, by rw [hbuf]⟩
      rw [hg2]
      dsimp only
      rw [hbuf, heq]
      exact ih { buf := buf, pos := p + 2 } true (j + 1) delim out f
        rfl (by omega) (by omega)
    | true =>
      rw [if_neg (by simp : ¬¬true = true)]
      have hg2 : b.get (p + 1) = .ok (buf.getD (p + 1) 0) :=
        (get_ok_iff _ _ _).mpr ⟨by omega, by rw [hbuf]⟩
      rw [hg2]
      dsimp only
      rw [heq]
      exact ih b true (j + 1) delim out f hbuf (by omega) (by omega)

/-- On a pointer chain needing at least `6 - j` further jumps the loop
fails with the jump-limit error. -/
theorem chain_loop_err (buf : List Nat) (p n : Nat)
    (hchain : PointerChain buf p n) :
    ∀ (b : BytePacketBuffer) (jumped : Bool) (j : Nat)
      (delim out : List Nat) (fuel : Nat),
      b.buf = buf → j ≤ 6 → 6 ≤ j + n → 7 - j ≤ fuel →
      readQnameLoop fuel b p jumped j delim out = .err jumpLimitMsg := by
  induction hchain with
  | term p hp h0 =>
    intro b jumped j delim out fuel hbuf hj hjn hfuel
    have : j = 6 := by omega
    subst this
    obtain ⟨f, rfl⟩ : ∃ f, fuel = f + 1 := ⟨fuel - 1, by omega⟩
    rw [readQnameLoop, if_pos (by simp [maxJumps] : (6 : Nat) > maxJumps)]
  | jump p t n hp hptr heq hrest ih =>
    intro b jumped j delim out fuel hbuf hj hjn hfuel
    obtain ⟨f, rfl⟩ : ∃ f, fuel = f + 1 := ⟨fuel - 1, by omega⟩
    by_cases hj6 : j = 6
    · subst hj6
      rw [readQnameLoop, if_pos (by simp [maxJumps] : (6 : Nat) > maxJumps)]
    · have hg : b.get p = .ok (buf.getD p 0) :=
        (get_ok_iff b p _).mpr ⟨by omega, by rw [hbuf]⟩
      rw [readQnameLoop, if_neg (by simp [maxJumps]; omega : ¬j > maxJumps),
        hg]
      dsimp only
      rw [if_pos hptr]
      cases jumped with
      | false =>
        rw [if_pos (by simp : ¬false = true)]
        have hg2 : BytePacketBuffer.get { buf := b.buf, pos := p + 2 }
            (p + 1) = .ok (buf.getD (p + 1) 0) :=
          (get_ok_iff _ _ _).mpr ⟨by omega, by rw [hbuf]⟩
        rw [hg2]
        dsimp only
        rw [hbuf, heq]
        exact ih { buf := buf, pos := p + 2 } true (j + 1) delim out f
          rfl (by omega) (by omega) (by omega)
      | true =>
        rw [if_neg (by simp : ¬¬true = true)]
        have hg2 : b.get (p + 1) = .ok (buf.getD (p + 1) 0) :=
          (get_ok_iff _ _ _).mpr ⟨by omega, by rw [hbuf]⟩
        rw [hg2]
        dsimp only
        rw [heq]
        exact ih b true (j + 1) delim out f hbuf (by omega) (by omega)
          (by omega)

/-- The self-referential pointer pair `C0 02 C0 00` of the spec's cycle
scenario, at offset 0 of an otherwise zero buffer. -/
def cycleBuf : BytePacketBuffer :=
  { buf := [0xC0, 0x02, 0xC0, 0x00] ++ List.replicate 508 0, pos := 0 }

/-- C7: decoding a name whose bytes form a compression-pointer chain
(each pointer's target possibly a further pointer, each counted as one
jump) succeeds when it needs at most 5 jumps and fails with the
`Limit of 5 jumps exceeded` error when it needs 6 or more; the crafted
cycle `C0 02 C0 00` also terminates with that error. -/
theorem c7_jump_limit :
    (∀ (b : BytePacketBuffer) (p n : Nat),
      PointerChain b.buf p n → b.pos = p →
      (n ≤ 5 → ∃ o bf, b.read_qname [] = .ok (o, bf)) ∧
      (6 ≤ n → b.read_qname [] = .err jumpLimitMsg)) ∧
    cycleBuf.read_qname [] = .err jumpLimitMsg := by
  constructor
  · intro b p n hchain hpos
    constructor
    · intro hn
      obtain ⟨q, jf, bf, hloop⟩ := chain_loop_ok b.buf p n hchain b false 0
        [] [] qnameFuel rfl (by omega) (by simp [qnameFuel]; omega)
      unfold BytePacketBuffer.read_qname
      rw [hpos, hloop]
      dsimp only
      cases jf with
      | false => exact ⟨[], { bf with pos := q }, by rw [if_pos (by simp)]⟩
      | true => exact ⟨[], bf, by rw [if_neg (by simp)]⟩
    · intro hn
      have hloop := chain_loop_err b.buf p n hchain b false 0 [] []
        qnameFuel rfl (by omega) (by omega) (by simp [qnameFuel])
      unfold BytePacketBuffer.read_qname
      rw [hpos, hloop]
  · decide

/-- A linear chain of exactly 5 pointers, then an empty name. -/
def chain5Buf : BytePacketBuffer :=
  { buf := [0xC0, 0x02, 0xC0, 0x04, 0xC0, 0x06, 0xC0, 0x08, 0xC0, 0x0A, 0]
      ++ List.replicate 501 0,
    pos := 0 }

/-- A linear chain of exactly 6 pointers, then an empty name. -/
def chain6Buf : BytePacketBuffer :=
  { buf := [0xC0, 0x02, 0xC0, 0x04, 0xC0, 0x06, 0xC0, 0x08, 0xC0, 0x0A,
      0xC0, 0x0C, 0] ++ List.replicate 499 0,
    pos := 0 }

/-- C7 (witness): a name that needs exactly 5 jumps decodes
successfully; one that needs exactly 6 fails with the jump-limit
error. -/
theorem c7_jump_limit_witness :
    (∃ o bf, chain5Buf.read_qname [] = .ok (o, bf)) ∧
    chain6Buf.read_qname [] = .err jumpLimitMsg := by
  have h5 : PointerChain chain5Buf.buf 0 5 := by
    refine .jump 0 2 4 (by omega) (by decide) (by decide) ?_
    refine .jump 2 4 3 (by omega) (by decide) (by decide) ?_
    refine .jump 4 6 2 (by omega) (by decide) (by decide) ?_
    refine .jump 6 8 1 (by omega) (by decide) (by decide) ?_
    exact .jump 8 10 0 (by omega) (by decide) (by decide)
      (.term 10 (by omega) (by decide))
  have h6 : PointerChain chain6Buf.buf 0 6 := by
    refine .jump 0 2 5 (by omega) (by decide) (by decide) ?_
    refine .jump 2 4 4 (by omega) (by decide) (by decide) ?_
    refine .jump 4 6 3 (by omega) (by decide) (by decide) ?_
    refine .jump 6 8 2 (by omega) (by decide) (by decide) ?_
    refine .jump 8 10 1 (by omega) (by decide) (by decide) ?_
    exact .jump 10 12 0 (by omega) (by decide) (by decide)
      (.term 12 (by omega) (by decide))
  exact ⟨(c7_jump_limit.1 chain5Buf 0 5 h5 rfl).1 (by omega),
    (c7_jump_limit.1 chain6Buf 0 6 h6 rfl).2 (by omega)⟩
theorem ok_bind {α β : Type} (a : α) (f : α → Res β) :
    (Res.ok a : Res α) >>= f = f a := rfl

theorem getD_set_ite (l : List Nat) (i j v : Nat) :
    (l.set i v).getD j 0 = if i = j ∧ i < l.length then v else l.getD j 0 := by
  rw [List.getD_eq_getElem?_getD, List.getElem?_set]
  by_cases hij : i = j
  · subst hij
    by_cases hlen : i < l.length
    · rw [if_pos rfl, if_pos hlen, if_pos ⟨rfl, hlen⟩]
      rfl
    · rw [if_pos rfl, if_neg hlen, if_neg (by tauto)]
      rw [List.getD_eq_getElem?_getD, List.getElem?_eq_none (by omega)]
  · rw [if_neg hij, if_neg (by tauto), List.getD_eq_getElem?_getD]

theorem flagsA_decode : ∀ (rd tm aa resp : Bool) (op : Nat), op < 16 →
    (boolNum rd ||| u8shl (boolNum tm) 1 ||| u8shl (boolNum aa) 2
        ||| u8shl (op % 256) 3 ||| u8shl (boolNum resp) 7) < 256 ∧
    decide ((boolNum rd ||| u8shl (boolNum tm) 1 ||| u8shl (boolNum aa) 2
        ||| u8shl (op % 256) 3 ||| u8shl (boolNum resp) 7) &&& (1 <<< 0) > 0)
      = rd ∧
    decide ((boolNum rd ||| u8shl (boolNum tm) 1 ||| u8shl (boolNum aa) 2
        ||| u8shl (op % 256) 3 ||| u8shl (boolNum resp) 7) &&& (1 <<< 1) > 0)
      = tm ∧
    decide ((boolNum rd ||| u8shl (boolNum tm) 1 ||| u8shl (boolNum aa) 2
        ||| u8shl (op % 256) 3 ||| u8shl (boolNum resp) 7) &&& (1 <<< 2) > 0)
      = aa ∧
    ((boolNum rd ||| u8shl (boolNum tm) 1 ||| u8shl (boolNum aa) 2
        ||| u8shl (op % 256) 3 ||| u8shl (boolNum resp) 7) >>> 3) &&& 0x0F
      = op ∧
    decide ((boolNum rd ||| u8shl (boolNum tm) 1 ||| u8shl (boolNum aa) 2
        ||| u8shl (op % 256) 3 ||| u8shl (boolNum resp) 7) &&& (1 <<< 7) > 0)
      = resp := by
  decide

theorem flagsB_decode : ∀ (rc : ResultCode) (cd ad z ra : Bool),
    (rc.toNum ||| u8shl (boolNum cd) 4 ||| u8shl (boolNum ad) 5
        ||| u8shl (boolNum z) 6 ||| u8shl (boolNum ra) 7) < 256 ∧
    ResultCode.from_num
        ((rc.toNum ||| u8shl (boolNum cd) 4 ||| u8shl (boolNum ad) 5
          ||| u8shl (boolNum z) 6 ||| u8shl (boolNum ra) 7) &&& 0x0F) = rc ∧
    decide ((rc.toNum ||| u8shl (boolNum cd) 4 ||| u8shl (boolNum ad) 5
        ||| u8shl (boolNum z) 6 ||| u8shl (boolNum ra) 7) &&& (1 <<< 4) > 0)
      = cd ∧
    decide ((rc.toNum ||| u8shl (boolNum cd) 4 ||| u8shl (boolNum ad) 5
        ||| u8shl (boolNum z) 6 ||| u8shl (boolNum ra) 7) &&& (1 <<< 5) > 0)
      = ad ∧
    decide ((rc.toNum ||| u8shl (boolNum cd) 4 ||| u8shl (boolNum ad) 5
        ||| u8shl (boolNum z) 6 ||| u8shl (boolNum ra) 7) &&& (1 <<< 6) > 0)
      = z ∧
    decide ((rc.toNum ||| u8shl (boolNum cd) 4 ||| u8shl (boolNum ad) 5
        ||| u8shl (boolNum z) 6 ||| u8shl (boolNum ra) 7) &&& (1 <<< 7) > 0)
      = ra := by
  intro rc
  cases rc <;> decide


theorem header_write_new (h : DnsHeader) :
    h.write BytePacketBuffer.new = .ok
      { buf := List.replicate 512 0
          |>.set 0 ((h.id >>> 8) % 256)
          |>.set 1 ((h.id &&& 255) % 256)
          |>.set 2 (boolNum h.recursion_desired
            ||| u8shl (boolNum h.truncated_message) 1
            ||| u8shl (boolNum h.authoritative_answer) 2
            ||| u8shl (h.opcode % 256) 3
            ||| u8shl (boolNum h.response) 7)
          |>.set 3 (h.rescode.toNum
            ||| u8shl (boolNum h.checking_disabled) 4
            ||| u8shl (boolNum h.authed_data) 5
            ||| u8shl (boolNum h.z) 6
            ||| u8shl (boolNum h.recursion_available) 7)
          |>.set 4 ((h.questions >>> 8) % 256)
          |>.set 5 ((h.questions &&& 255) % 256)
          |>.set 6 ((h.answers >>> 8) % 256)
          |>.set 7 ((h.answers &&& 255) % 256)
          |>.set 8 ((h.authoritative_entries >>> 8) % 256)
          |>.set 9 ((h.authoritative_entries &&& 255) % 256)
          |>.set 10 ((h.resource_entries >>> 8) % 256)
          |>.set 11 ((h.resource_entries &&& 255) % 256),
        pos := 12 } := by
  unfold DnsHeader.write BytePacketBuffer.write_u16 BytePacketBuffer.write_u8
    BytePacketBuffer.write BytePacketBuffer.new
  norm_num [ok_bind]

theorem read_u16_ok (b : BytePacketBuffer) (h2 : b.pos + 2 ≤ 512) :
    b.read_u16 = .ok ((b.buf.getD b.pos 0 <<< 8) ||| b.buf.getD (b.pos + 1) 0,
      { b with pos := b.pos + 2 }) := by
  rw [BytePacketBuffer.read_u16, read_ok _ (by omega), ok_bind]
  dsimp only
  rw [read_ok _ (by dsimp only; omega), ok_bind]
  dsimp only
  rfl

/-- Reading a header from position 0 of a buffer whose first 12 bytes
are `d0 … d11`. -/
theorem header_read_12 (L : List Nat)
    (d0 d1 d2 d3 d4 d5 d6 d7 d8 d9 d10 d11 : Nat)
    (h0 : L.getD 0 0 = d0) (h1 : L.getD 1 0 = d1) (h2 : L.getD 2 0 = d2)
    (h3 : L.getD 3 0 = d3) (h4 : L.getD 4 0 = d4) (h5 : L.getD 5 0 = d5)
    (h6 : L.getD 6 0 = d6) (h7 : L.getD 7 0 = d7) (h8 : L.getD 8 0 = d8)
    (h9 : L.getD 9 0 = d9) (h10 : L.getD 10 0 = d10)
    (h11 : L.getD 11 0 = d11) :
    DnsHeader.read { buf := L, pos := 0 } = .ok
      ({ id := d0 <<< 8 ||| d1
         recursion_desired :=
           ((d2 <<< 8 ||| d3) >>> 8) % 256 &&& (1 <<< 0) > 0
         truncated_message :=
           ((d2 <<< 8 ||| d3) >>> 8) % 256 &&& (1 <<< 1) > 0
         authoritative_answer :=
           ((d2 <<< 8 ||| d3) >>> 8) % 256 &&& (1 <<< 2) > 0
         opcode := ((((d2 <<< 8 ||| d3) >>> 8) % 256) >>> 3) &&& 0x0F
         response := ((d2 <<< 8 ||| d3) >>> 8) % 256 &&& (1 <<< 7) > 0
         rescode :=
           ResultCode.from_num ((d2 <<< 8 ||| d3) &&& 0xFF &&& 0x0F)
         checking_disabled := (d2 <<< 8 ||| d3) &&& 0xFF &&& (1 <<< 4) > 0
         authed_data := (d2 <<< 8 ||| d3) &&& 0xFF &&& (1 <<< 5) > 0
         z := (d2 <<< 8 ||| d3) &&& 0xFF &&& (1 <<< 6) > 0
         recursion_available := (d2 <<< 8 ||| d3) &&& 0xFF &&& (1 <<< 7) > 0
         questions := d4 <<< 8 ||| d5
         answers := d6 <<< 8 ||| d7
         authoritative_entries := d8 <<< 8 ||| d9
         resource_entries := d10 <<< 8 ||| d11 }, { buf := L, pos := 12 }) := by
  rw [DnsHeader.read]
  rw [read_u16_ok _ (by dsimp only; omega), ok_bind]
  dsimp only
  rw [read_u16_ok _ (by dsimp only; omega), ok_bind]
  dsimp only
  rw [read_u16_ok _ (by dsimp only; omega), ok_bind]
  dsimp only
  rw [read_u16_ok _ (by dsimp only; omega), ok_bind]
  dsimp only
  rw [read_u16_ok _ (by dsimp only; omega), ok_bind]
  dsimp only
  rw [read_u16_ok _ (by dsimp only; omega), ok_bind]
  dsimp only
  simp only [Nat.reduceAdd]
  rw [h0, h1, h2, h3, h4, h5, h6, h7, h8, h9, h10, h11]
  rfl

theorem shr8_of_or256 (x y : Nat) (hy : y < 256) :
    ((x <<< 8) ||| y) >>> 8 = x := by
  rw [or256_eq_add _ _ hy, Nat.shiftRight_eq_div_pow]
  norm_num
  omega

/-- C6: writing any header whose numeric fields fit their wire widths
(16-bit id and counts, 4-bit opcode, and the 4-bit rescode enumeration)
into a fresh buffer and reading the resulting 12 bytes back from
position 0 reproduces every field of the header. -/
theorem c6_header_roundtrip (h : DnsHeader) (hid : h.id < 65536)
    (hop : h.opcode < 16) (hq : h.questions < 65536)
    (ha : h.answers < 65536) (hau : h.authoritative_entries < 65536)
    (hre : h.resource_entries < 65536) :
    ∃ b, h.write BytePacketBuffer.new = .ok b ∧
      DnsHeader.read { b with pos := 0 } = .ok (h, { b with pos := 12 }) := by
  obtain ⟨hA1, hA2, hA3, hA4, hA5, hA6⟩ :=
    flagsA_decode h.recursion_desired h.truncated_message
      h.authoritative_answer h.response h.opcode hop
  obtain ⟨hB1, hB2, hB3, hB4, hB5, hB6⟩ :=
    flagsB_decode h.rescode h.checking_disabled h.authed_data h.z
      h.recursion_available
  refine ⟨_, header_write_new h, ?_⟩
  dsimp only
  have hread := header_read_12
    (List.replicate 512 0
      |>.set 0 ((h.id >>> 8) % 256)
      |>.set 1 ((h.id &&& 255) % 256)
      |>.set 2 (boolNum h.recursion_desired
        ||| u8shl (boolNum h.truncated_message) 1
        ||| u8shl (boolNum h.authoritative_answer) 2
        ||| u8shl (h.opcode % 256) 3
        ||| u8shl (boolNum h.response) 7)
      |>.set 3 (h.rescode.toNum
        ||| u8shl (boolNum h.checking_disabled) 4
        ||| u8shl (boolNum h.authed_data) 5
        ||| u8shl (boolNum h.z) 6
        ||| u8shl (boolNum h.recursion_available) 7)
      |>.set 4 ((h.questions >>> 8) % 256)
      |>.set 5 ((h.questions &&& 255) % 256)
      |>.set 6 ((h.answers >>> 8) % 256)
      |>.set 7 ((h.answers &&& 255) % 256)
      |>.set 8 ((h.authoritative_entries >>> 8) % 256)
      |>.set 9 ((h.authoritative_entries &&& 255) % 256)
      |>.set 10 ((h.resource_entries >>> 8) % 256)
      |>.set 11 ((h.resource_entries &&& 255) % 256))
    _ _ _ _ _ _ _ _ _ _ _ _
    (by norm_num [getD_set_ite]; rfl) (by norm_num [getD_set_ite]; rfl)
    (by norm_num [getD_set_ite]; rfl) (by norm_num [getD_set_ite]; rfl)
    (by norm_num [getD_set_ite]; rfl) (by norm_num [getD_set_ite]; rfl)
    (by norm_num [getD_set_ite]; rfl) (by norm_num [getD_set_ite]; rfl)
    (by norm_num [getD_set_ite]; rfl) (by norm_num [getD_set_ite]; rfl)
    (by norm_num [getD_set_ite]; rfl) (by norm_num [getD_set_ite]; rfl)
  rw [hread]
  have key : ∀ (x y : DnsHeader × BytePacketBuffer), x = y →
      (Res.ok x : Res (DnsHeader × BytePacketBuffer)) = Res.ok y :=
    fun x y hxy => hxy ▸ rfl
  apply key
  rw [Prod.mk.injEq]
  refine ⟨?_, rfl⟩
  rw [DnsHeader.mk.injEq]
  refine ⟨?_, ?_, ?_, ?_, ?_, ?_, ?_, ?_, ?_, ?_, ?_, ?_, ?_, ?_, ?_⟩
  · exact dec16 _ hid
  · rw [shr8_of_or256 _ _ hB1, Nat.mod_eq_of_lt hA1]
    exact hA2
  · rw [shr8_of_or256 _ _ hB1, Nat.mod_eq_of_lt hA1]
    exact hA3
  · rw [shr8_of_or256 _ _ hB1, Nat.mod_eq_of_lt hA1]
    exact hA4
  · rw [shr8_of_or256 _ _ hB1, Nat.mod_eq_of_lt hA1]
    exact hA5
  · rw [shr8_of_or256 _ _ hB1, Nat.mod_eq_of_lt hA1]
    exact hA6
  · rw [lo_of_or256 _ _ hB1]
    exact hB2
  · rw [lo_of_or256 _ _ hB1]
    exact hB3
  · rw [lo_of_or256 _ _ hB1]
    exact hB4
  · rw [lo_of_or256 _ _ hB1]
    exact hB5
  · rw [lo_of_or256 _ _ hB1]
    exact hB6
  · exact dec16 _ hq
  · exact dec16 _ ha
  · exact dec16 _ hau
  · exact dec16 _ hre

/-- C6 (witness): the round-trip at the spec's end-to-end scenario
header (id 0x1234, recursion_desired, response, one question, two
answers), with a nonzero opcode and rescode thrown in. -/
theorem c6_header_roundtrip_witness :
    ∃ b, ({ DnsHeader.new with
              id := 0x1234, recursion_desired := true, response := true,
              opcode := 9, rescode := .NXDOMAIN, questions := 1,
              answers := 2 } : DnsHeader).write BytePacketBuffer.new =
        .ok b ∧
      DnsHeader.read { b with pos := 0 } =
        .ok ({ DnsHeader.new with
                 id := 0x1234, recursion_desired := true, response := true,
                 opcode := 9, rescode := .NXDOMAIN, questions := 1,
                 answers := 2 }, { b with pos := 12 }) :=
  c6_header_roundtrip _ (by decide) (by decide) (by decide) (by decide)
    (by decide) (by decide)

/-! ## C5 and C8: the qname codec round trip -/

/-- The label-sequence part of a name's wire form: each label preceded
by its length byte. -/
def labelsEnc : List (List Nat) → List Nat
  | [] => []
  | l :: ls => (l.length :: l) ++ labelsEnc ls

/-- The full wire form `write_qname` produces: the labels, then the
terminating zero byte. -/
def qnameEnc (labels : List (List Nat)) : List Nat :=
  labelsEnc labels ++ [0]

/-- What the read loop appends for a label sequence: the current
delimiter, the lowercased label, and a dot before each further label. -/
def joinLower (delim : List Nat) : List (List Nat) → List Nat
  | [] => []
  | l :: ls => delim ++ l.map toLowerByte ++ joinLower [46] ls

theorem splitOnDot_ne_nil (n : List Nat) : splitOnDot n ≠ [] := by
  cases n with
  | nil => simp [splitOnDot]
  | cons byte rest =>
    rw [splitOnDot]
    split
    · simp
    · split <;> simp

theorem qnameEnc_cons (l : List Nat) (ls : List (List Nat)) :
    qnameEnc (l :: ls) = (l.length :: l) ++ qnameEnc ls := by
  simp [qnameEnc, labelsEnc]

theorem labelsEnc_split_length (n : List Nat) :
    (labelsEnc (splitOnDot n)).length = n.length + 1 := by
  induction n with
  | nil => rfl
  | cons byte rest ih =>
    rw [splitOnDot]
    by_cases hb : byte = 46
    · rw [if_pos hb]
      simp only [labelsEnc, List.length_append, List.length_cons,
        List.length_nil] at ih ⊢
      omega
    · rw [if_neg hb]
      rcases hs : splitOnDot rest with - | ⟨piece, pieces⟩
      · exact absurd hs (splitOnDot_ne_nil rest)
      · rw [hs] at ih
        simp only [labelsEnc, List.length_append, List.length_cons] at ih ⊢
        omega

theorem splitOnDot_length_le (n : List Nat) :
    (splitOnDot n).length ≤ n.length + 1 := by
  induction n with
  | nil => simp [splitOnDot]
  | cons byte rest ih =>
    rw [splitOnDot]
    by_cases hb : byte = 46
    · rw [if_pos hb]
      simp only [List.length_cons]
      omega
    · rw [if_neg hb]
      rcases hs : splitOnDot rest with - | ⟨piece, pieces⟩
      · exact absurd hs (splitOnDot_ne_nil rest)
      · rw [hs] at ih
        simp only [List.length_cons] at ih ⊢
        omega

theorem joinLower_dot (ls : List (List Nat)) (h : ls ≠ []) :
    joinLower [46] ls = 46 :: joinLower [] ls := by
  cases ls with
  | nil => exact absurd rfl h
  | cons l rest => simp [joinLower]

theorem joinLower_splitOnDot (n : List Nat) :
    joinLower [] (splitOnDot n) = n.map toLowerByte := by
  induction n with
  | nil => rfl
  | cons byte rest ih =>
    rw [splitOnDot]
    by_cases hb : byte = 46
    · rw [if_pos hb]
      rw [joinLower]
      rw [joinLower_dot _ (splitOnDot_ne_nil rest), ih, hb]
      simp [toLowerByte]
    · rw [if_neg hb]
      rcases hs : splitOnDot rest with - | ⟨piece, pieces⟩
      · exact absurd hs (splitOnDot_ne_nil rest)
      · rw [hs] at ih
        rw [joinLower]
        rw [joinLower] at ih
        simp only [List.map_cons, List.nil_append] at ih ⊢
        rw [← ih]
        simp

/-- Effect of writing one label's raw bytes. -/
theorem writeLabelBytes_ok :
    ∀ (bytes : List Nat) (b : BytePacketBuffer),
      b.pos + bytes.length ≤ 512 → b.buf.length = 512 →
      ∃ b', writeLabelBytes b bytes = .ok b' ∧
        b'.pos = b.pos + bytes.length ∧ b'.buf.length = 512 ∧
        (∀ j, j < bytes.length →
          b'.buf.getD (b.pos + j) 0 = bytes.getD j 0) ∧
        (∀ i, i < b.pos → b'.buf.getD i 0 = b.buf.getD i 0) := by
  intro bytes
  induction bytes with
  | nil =>
    intro b hfit hlen
    refine ⟨b, rfl, by simp, hlen, ?_, ?_⟩
    · intro j hj
      cases hj
    · intro i hi
      rfl
  | cons byte rest ih =>
    intro b hfit hlen
    simp only [List.length_cons] at hfit
    rw [writeLabelBytes, write_ok _ _ (by omega), ok_bind]
    obtain ⟨b', hrun, hpos, hlen', hcontent, hframe⟩ :=
      ih { buf := b.buf.set b.pos byte, pos := b.pos + 1 }
        (by dsimp only; omega) (by simp [hlen])
    refine ⟨b', hrun, by rw [hpos]; dsimp only; simp only [List.length_cons]; omega, hlen', ?_, ?_⟩
    · intro j hj
      cases j with
      | zero =>
        rw [show b.pos + 0 = b.pos by omega]
        rw [hframe b.pos (by dsimp only; omega)]
        dsimp only
        rw [getD_set_self _ _ _ (by omega), List.getD_cons_zero]
      | succ j' =>
        rw [show b.pos + (j' + 1) = b.pos + 1 + j' by omega]
        have := hcontent j' (by simp only [List.length_cons] at hj; omega)
        dsimp only at this
        rw [this, List.getD_cons_succ]
    · intro i hi
      rw [hframe i (by dsimp only; omega)]
      dsimp only
      rw [getD_set_ne _ _ _ _ (by omega)]

/-- Effect of the label-writing loop of `write_qname` when every label
fits: the wire form `labelsEnc` lands at the cursor. -/
theorem writeQnameLabels_ok :
    ∀ (labels : List (List Nat)) (b : BytePacketBuffer),
      (∀ l ∈ labels, l.length ≤ 63) →
      b.pos + (labelsEnc labels).length ≤ 512 → b.buf.length = 512 →
      ∃ b', writeQnameLabels b labels = .ok b' ∧
        b'.pos = b.pos + (labelsEnc labels).length ∧ b'.buf.length = 512 ∧
        (∀ j, j < (labelsEnc labels).length →
          b'.buf.getD (b.pos + j) 0 = (labelsEnc labels).getD j 0) ∧
        (∀ i, i < b.pos → b'.buf.getD i 0 = b.buf.getD i 0) := by
  intro labels
  induction labels with
  | nil =>
    intro b hlab hfit hlen
    refine ⟨b, rfl, by simp [labelsEnc], hlen, ?_, ?_⟩
    · intro j hj
      simp [labelsEnc] at hj
    · intro i hi
      rfl
  | cons l ls ih =>
    intro b hlab hfit hlen
    have henc : (labelsEnc (l :: ls)).length =
        l.length + 1 + (labelsEnc ls).length := by
      simp [labelsEnc]
      omega
    have hl63 : l.length ≤ 63 := hlab l (by simp)
    rw [writeQnameLabels, if_neg (by omega : ¬l.length > 0x3f)]
    rw [show l.length % 256 = l.length from Nat.mod_eq_of_lt (by omega)]
    rw [BytePacketBuffer.write_u8, write_ok _ _ (by omega), ok_bind]
    obtain ⟨b2, hrun2, hpos2, hlen2, hcont2, hframe2⟩ :=
      writeLabelBytes_ok l { buf := b.buf.set b.pos l.length, pos := b.pos + 1 }
        (by dsimp only; omega) (by simp [hlen])
    rw [hrun2, ok_bind]
    dsimp only at hpos2 hcont2 hframe2
    obtain ⟨b3, hrun3, hpos3, hlen3, hcont3, hframe3⟩ :=
      ih b2 (fun x hx => hlab x (by simp [hx]))
        (by rw [hpos2]; omega) hlen2
    rw [hpos2] at hpos3 hcont3 hframe3
    refine ⟨b3, hrun3, by rw [hpos3]; omega, hlen3, ?_, ?_⟩
    · intro j hj
      rcases Nat.lt_or_ge j (l.length + 1) with hjl | hjr
      · have hb3 : b3.buf.getD (b.pos + j) 0 = b2.buf.getD (b.pos + j) 0 :=
          hframe3 _ (by omega)
        rw [hb3]
        cases j with
        | zero =>
          rw [show b.pos + 0 = b.pos by omega]
          rw [hframe2 _ (by omega), getD_set_self _ _ _ (by omega)]
          rw [show labelsEnc (l :: ls) = (l.length :: l) ++ labelsEnc ls
            from rfl]
          rw [List.getD_append _ _ _ _ (by simp), List.getD_cons_zero]
        | succ j' =>
          rw [show b.pos + (j' + 1) = b.pos + 1 + j' by omega]
          rw [hcont2 j' (by omega)]
          rw [show labelsEnc (l :: ls) = (l.length :: l) ++ labelsEnc ls
            from rfl]
          rw [List.getD_append _ _ _ _ (by simp; omega), List.getD_cons_succ]
      · rw [show b.pos + j = b.pos + 1 + l.length + (j - (l.length + 1))
          by omega]
        rw [hcont3 _ (by omega)]
        rw [show labelsEnc (l :: ls) = (l.length :: l) ++ labelsEnc ls
          from rfl]
        rw [List.getD_append_right _ _ _ _ (by simp; omega),
          show (l.length :: l).length = l.length + 1 by simp]
    · intro i hi
      rw [hframe3 _ (by omega), hframe2 _ (by omega),
        getD_set_ne _ _ _ _ (by omega)]

/-- Effect of `write_qname` when every label fits and there is room:
the full wire form `qnameEnc (splitOnDot n)` (which is `n.length + 2`
bytes long) lands at the cursor. -/
theorem write_qname_ok (n : List Nat) (b : BytePacketBuffer)
    (hlab : ∀ l ∈ splitOnDot n, l.length ≤ 63)
    (hfit : b.pos + (n.length + 2) ≤ 512) (hlen : b.buf.length = 512) :
    ∃ b', b.write_qname n = .ok b' ∧ b'.pos = b.pos + (n.length + 2) ∧
      b'.buf.length = 512 ∧
      (∀ j, j < n.length + 2 →
        b'.buf.getD (b.pos + j) 0 = (qnameEnc (splitOnDot n)).getD j 0) ∧
      (∀ i, i < b.pos → b'.buf.getD i 0 = b.buf.getD i 0) := by
  have hL := labelsEnc_split_length n
  obtain ⟨b1, hrun1, hpos1, hlen1, hcont1, hframe1⟩ :=
    writeQnameLabels_ok (splitOnDot n) b hlab (by omega) hlen
  rw [BytePacketBuffer.write_qname, hrun1, ok_bind, BytePacketBuffer.write_u8]
  rw [write_ok _ _ (by omega)]
  refine ⟨_, rfl, by dsimp only; omega, by simp [hlen1], ?_, ?_⟩
  · intro j hj
    dsimp only
    rcases Nat.lt_or_ge j (n.length + 1) with hjl | hjr
    · rw [getD_set_ne _ _ _ _ (by omega)]
      rw [hcont1 j (by omega)]
      rw [qnameEnc, List.getD_append _ _ _ _ (by omega)]
    · have hj' : j = n.length + 1 := by omega
      subst hj'
      rw [show b.pos + (n.length + 1) = b1.pos by omega]
      rw [getD_set_self _ _ _ (by omega)]
      rw [qnameEnc, List.getD_append_right _ _ _ _ (by omega), hL]
      simp
  · intro i hi
    dsimp only
    rw [getD_set_ne _ _ _ _ (by omega), hframe1 _ hi]

/-- When some label exceeds 63 bytes and the labels before it fit, the
label loop of `write_qname` fails with the label-length error. -/
theorem writeQnameLabels_err :
    ∀ (labels : List (List Nat)) (b : BytePacketBuffer),
      b.pos + (labelsEnc labels).length ≤ 512 → b.buf.length = 512 →
      (∃ l ∈ labels, 63 < l.length) →
      writeQnameLabels b labels = .err labelTooLongMsg := by
  intro labels
  induction labels with
  | nil =>
    intro b hfit hlen hbad
    simp at hbad
  | cons l ls ih =>
    intro b hfit hlen hbad
    have henc : (labelsEnc (l :: ls)).length =
        l.length + 1 + (labelsEnc ls).length := by
      simp [labelsEnc]
      omega
    by_cases hl : 63 < l.length
    · rw [writeQnameLabels, if_pos (by omega : l.length > 0x3f)]
    · rw [writeQnameLabels, if_neg (by omega : ¬l.length > 0x3f)]
      rw [show l.length % 256 = l.length from Nat.mod_eq_of_lt (by omega)]
      rw [BytePacketBuffer.write_u8, write_ok _ _ (by omega), ok_bind]
      obtain ⟨b2, hrun2, hpos2, hlen2, -, -⟩ :=
        writeLabelBytes_ok l
          { buf := b.buf.set b.pos l.length, pos := b.pos + 1 }
          (by dsimp only; omega) (by simp [hlen])
      rw [hrun2, ok_bind]
      dsimp only at hpos2
      refine ih b2 (by rw [hpos2]; omega) hlen2 ?_
      rcases hbad with ⟨x, hx, hxlen⟩
      rcases List.mem_cons.mp hx with hx2 | hx2
      · exact absurd (hx2 ▸ hxlen) hl
      · exact ⟨x, hx2, hxlen⟩

/-- A region of a buffer whose bytes agree pointwise with `l` is
extracted by `drop`/`take` as exactly `l`. -/
theorem take_drop_eq_of_getD :
    ∀ (l xs : List Nat) (start : Nat),
      start + l.length ≤ xs.length →
      (∀ j, j < l.length → xs.getD (start + j) 0 = l.getD j 0) →
      (xs.drop start).take l.length = l := by
  intro l
  induction l with
  | nil =>
    intro xs start hfit hpt
    simp
  | cons a l' ih =>
    intro xs start hfit hpt
    simp only [List.length_cons] at hfit
    have hstart : start < xs.length := by omega
    rw [List.drop_eq_getElem_cons hstart, List.length_cons,
      List.take_succ_cons]
    have h0 := hpt 0 (by simp)
    rw [show start + 0 = start by omega, List.getD_eq_getElem _ _ hstart,
      List.getD_cons_zero] at h0
    rw [h0]
    rw [ih xs (start + 1) (by omega) ?_]
    intro j hj
    have := hpt (j + 1) (by simp only [List.length_cons]; omega)
    rw [show start + (j + 1) = start + 1 + j by omega] at this
    rw [this, List.getD_cons_succ]

/-- The read loop over a region holding the wire form of a sequence of
nonempty, short labels: it consumes the whole encoding, appends the
lowercased dotted form, performs no jump and leaves the buffer alone. -/
theorem readQnameLoop_labels :
    ∀ (labels : List (List Nat)) (b : BytePacketBuffer) (p j : Nat)
      (jumped : Bool) (delim out : List Nat) (fuel : Nat),
      (∀ l ∈ labels, 1 ≤ l.length ∧ l.length ≤ 63) → j ≤ 5 →
      labels.length + 1 ≤ fuel →
      p + (qnameEnc labels).length ≤ 512 → b.buf.length = 512 →
      (∀ i, i < (qnameEnc labels).length →
        b.buf.getD (p + i) 0 = (qnameEnc labels).getD i 0) →
      readQnameLoop fuel b p jumped j delim out =
        .ok (out ++ joinLower delim labels, p + (qnameEnc labels).length,
          jumped, b) := by
  intro labels
  induction labels with
  | nil =>
    intro b p j jumped delim out fuel hlab hj hfuel hfit hblen hcont
    obtain ⟨f, rfl⟩ : ∃ f, fuel = f + 1 := ⟨fuel - 1, by omega⟩
    have h0 := hcont 0 (by simp [qnameEnc, labelsEnc])
    rw [show p + 0 = p by omega] at h0
    simp only [qnameEnc, labelsEnc, List.nil_append, List.getD_cons_zero]
      at h0 hfit
    rw [readQnameLoop_term b j out delim jumped p (by omega)
      (by simp at hfit; omega) h0 f]
    simp [joinLower, qnameEnc, labelsEnc]
  | cons l ls ih =>
    intro b p j jumped delim out fuel hlab hj hfuel hfit hblen hcont
    obtain ⟨f, rfl⟩ : ∃ f, fuel = f + 1 := ⟨fuel - 1, by omega⟩
    have henc := qnameEnc_cons l ls
    have hlenenc : (qnameEnc (l :: ls)).length =
        l.length + 1 + (qnameEnc ls).length := by
      rw [henc]
      simp
      omega
    obtain ⟨hl1, hl63⟩ := hlab l (by simp)
    have hencpos : 1 ≤ (qnameEnc ls).length := by
      simp [qnameEnc]
    have h0 := hcont 0 (by omega)
    rw [show p + 0 = p by omega, henc,
      List.getD_append _ _ _ _ (by simp), List.getD_cons_zero] at h0
    have hg : b.get p = .ok l.length :=
      (get_ok_iff b p _).mpr ⟨by omega, h0⟩
    rw [readQnameLoop, if_neg (by simp [maxJumps]; omega : ¬j > maxJumps),
      hg]
    dsimp only
    have hand : l.length &&& 192 ≤ l.length := Nat.and_le_left
    rw [if_neg (by omega : ¬l.length &&& 0xC0 = 0xC0),
      if_neg (by omega : ¬l.length = 0)]
    have hpt : ∀ j', j' < l.length →
        b.buf.getD (p + 1 + j') 0 = l.getD j' 0 := by
      intro j' hj'
      have := hcont (j' + 1) (by omega)
      rw [show p + (j' + 1) = p + 1 + j' by omega, henc,
        List.getD_append _ _ _ _ (by simp; omega),
        List.getD_cons_succ] at this
      exact this
    rw [BytePacketBuffer.get_range, if_neg (by omega : ¬p + 1 + l.length > 512)]
    rw [take_drop_eq_of_getD l b.buf (p + 1) (by omega) hpt]
    dsimp only
    rw [ih b (p + 1 + l.length) j jumped [46]
      (out ++ delim ++ l.map toLowerByte) f
      (fun x hx => hlab x (by simp [hx])) hj
      (by simp only [List.length_cons] at hfuel; omega)
      (by omega) hblen ?_]
    · rw [show p + 1 + l.length + (qnameEnc ls).length =
        p + (qnameEnc (l :: ls)).length by omega]
      simp [joinLower, List.append_assoc]
    · intro i hi
      have := hcont (1 + l.length + i) (by omega)
      rw [show p + (1 + l.length + i) = p + 1 + l.length + i by omega,
        henc, List.getD_append_right _ _ _ _ (by simp; omega),
        show 1 + l.length + i - (l.length :: l).length = i by simp; omega]
        at this
      exact this

theorem qnameEnc_split_length (n : List Nat) :
    (qnameEnc (splitOnDot n)).length = n.length + 2 := by
  rw [qnameEnc]
  simp [labelsEnc_split_length]

/-- C5 (counterexample): the name `"."` (a single dot, two empty
labels) meets the claim's conditions — ASCII, labels of at most 63
bytes, encoded length at most 255 — but does not round-trip: it encodes
to three zero bytes (leaving a fresh buffer's bytes all zero) and
decodes to the empty string, not to `"."`. -/
theorem c5_dot_name_breaks_roundtrip :
    BytePacketBuffer.new.write_qname [46] =
      .ok { buf := List.replicate 512 0, pos := 3 } ∧
    ({ buf := List.replicate 512 0, pos := 0 } :
        BytePacketBuffer).read_qname [] =
      .ok ([], { buf := List.replicate 512 0, pos := 1 }) ∧
    ([] : List Nat) ≠ [46].map toLowerByte := by
  refine ⟨by decide, by decide, by decide⟩

/-- C5 (amended): for an ASCII name whose labels all fit in 63 bytes
and whose encoded form (`length + 2` bytes) fits in 255 bytes, writing
it into a fresh buffer and decoding from position 0 yields exactly its
lowercase form — provided the name is empty or has no empty label (a
name with an empty label, such as `"."`, encodes an in-name zero length
byte, and decoding stops there). -/
theorem c5_qname_roundtrip_amended (n : List Nat)
    (hascii : ∀ byte ∈ n, byte < 128)
    (hlen63 : ∀ l ∈ splitOnDot n, l.length ≤ 63)
    (hnonempty : n = [] ∨ ∀ l ∈ splitOnDot n, l ≠ [])
    (henc : n.length + 2 ≤ 255) :
    ∃ b', BytePacketBuffer.new.write_qname n = .ok b' ∧
      ∃ b'', BytePacketBuffer.read_qname { b' with pos := 0 } [] =
        .ok (n.map toLowerByte, b'') := by
  rcases hnonempty with rfl | hne
  · exact ⟨{ buf := List.replicate 512 0, pos := 2 }, by decide,
      { buf := List.replicate 512 0, pos := 1 }, by decide⟩
  · obtain ⟨b', hw, hpos, hblen, hcont, -⟩ :=
      write_qname_ok n BytePacketBuffer.new hlen63
        (by show 0 + (n.length + 2) ≤ 512; omega) new_buf_length
    refine ⟨b', hw, ?_⟩
    have hlab : ∀ l ∈ splitOnDot n, 1 ≤ l.length ∧ l.length ≤ 63 := by
      intro l hl
      have h1 := hne l hl
      have h2 := hlen63 l hl
      exact ⟨by cases l with
        | nil => exact absurd rfl h1
        | cons x xs => simp, h2⟩
    have hloop := readQnameLoop_labels (splitOnDot n)
      { b' with pos := 0 } 0 0 false [] [] qnameFuel hlab (by omega)
      (by have := splitOnDot_length_le n
          show (splitOnDot n).length + 1 ≤ 4096
          simp [qnameFuel] at *
          omega)
      (by rw [qnameEnc_split_length]; omega)
      (by dsimp only; exact hblen)
      (by intro i hi
          rw [qnameEnc_split_length] at hi
          have := hcont i hi
          dsimp only
          rw [show (0 : Nat) + i = i by omega]
          rw [show BytePacketBuffer.new.pos + i = i by
            show 0 + i = i; omega] at this
          exact this)
    rw [BytePacketBuffer.read_qname]
    rw [show ({ b' with pos := 0 } : BytePacketBuffer).pos = 0 from rfl]
    rw [hloop]
    dsimp only
    rw [if_pos (by simp)]
    rw [List.nil_append, joinLower_splitOnDot]
    exact ⟨_, rfl⟩

/-- C5 (witness): the round trip at the concrete mixed-case name
`"A.b"`, whose lowercase form is `"a.b"`. -/
theorem c5_qname_roundtrip_witness :
    ∃ b', BytePacketBuffer.new.write_qname [65, 46, 98] = .ok b' ∧
      ∃ b'', BytePacketBuffer.read_qname { b' with pos := 0 } [] =
        .ok ([65, 46, 98].map toLowerByte, b'') :=
  c5_qname_roundtrip_amended [65, 46, 98] (by decide) (by decide)
    (.inr (by decide)) (by decide)

/-- C8 (counterexample): on a fresh buffer pre-filled with the byte 7,
`write_qname ""` writes *two* zero bytes (Rust's `"".split('.')` yields
one empty label, so an empty-label length byte precedes the
terminator), advancing the cursor to 2, not 1. -/
theorem c8_empty_name_writes_two_bytes :
    ({ buf := List.replicate 512 7, pos := 0 } :
        BytePacketBuffer).write_qname [] =
      .ok { buf := [0, 0] ++ List.replicate 510 7, pos := 2 } ∧
    ¬(2 : Nat) = 1 := by
  refine ⟨by decide, by decide⟩

/-- C8 (amended): `write_qname ""` writes exactly the two bytes
`[0x00, 0x00]` (cursor advanced by 2) and decoding that yields `""`;
and in general, when a name's encoding (`length + 2` bytes) fits in the
512-byte buffer, `write_qname` succeeds if every label is at most 63
bytes and fails with the LabelTooLong error if some label is longer. -/
theorem c8_write_qname_boundaries :
    (BytePacketBuffer.new.write_qname [] =
      .ok { buf := List.replicate 512 0, pos := 2 }) ∧
    (({ buf := List.replicate 512 0, pos := 0 } :
        BytePacketBuffer).read_qname [] =
      .ok ([], { buf := List.replicate 512 0, pos := 1 })) ∧
    (∀ n : List Nat, (∀ l ∈ splitOnDot n, l.length ≤ 63) →
      n.length + 2 ≤ 512 →
      ∃ b', BytePacketBuffer.new.write_qname n = .ok b') ∧
    (∀ n : List Nat, n.length + 2 ≤ 512 →
      (∃ l ∈ splitOnDot n, 63 < l.length) →
      BytePacketBuffer.new.write_qname n = .err labelTooLongMsg) := by
  refine ⟨by decide, by decide, ?_, ?_⟩
  · intro n hlab hfit
    obtain ⟨b', hw, -⟩ := write_qname_ok n BytePacketBuffer.new hlab
      (by show 0 + (n.length + 2) ≤ 512; omega) new_buf_length
    exact ⟨b', hw⟩
  · intro n hfit hbad
    have hL := labelsEnc_split_length n
    rw [BytePacketBuffer.write_qname,
      writeQnameLabels_err (splitOnDot n) BytePacketBuffer.new
        (by show 0 + (labelsEnc (splitOnDot n)).length ≤ 512; omega)
        new_buf_length hbad]
    rfl

/-- C8 (witness): a 63-byte label is accepted, a 64-byte one is
rejected with the LabelTooLong error. -/
theorem c8_write_qname_witness :
    (∃ b', BytePacketBuffer.new.write_qname (List.replicate 63 97) =
      .ok b') ∧
    BytePacketBuffer.new.write_qname (List.replicate 64 97) =
      .err labelTooLongMsg :=
  ⟨c8_write_qname_boundaries.2.2.1 (List.replicate 63 97) (by decide)
      (by decide),
   c8_write_qname_boundaries.2.2.2 (List.replicate 64 97) (by decide)
      (by decide)⟩
